import Mathlib

/-!
Verification development for the HEIC→JPG enhancement core:
analyzer (`src/heic_converter/analyzer.py`), parameter generator
(`src/heic2jpg/optimizer.py`) and transform applier
(`src/heic2jpg/converter.py`).

Modelling conventions:
* Python floats are embedded as exact rationals (`ℚ`) wherever the source
  only performs field arithmetic, comparisons, `min`/`max` and `np.clip`;
  stages whose source uses transcendental operations (`np.log2`, square
  roots inside `np.std`, fractional `np.power` exponents) are embedded over
  `ℝ` or parameterised over the transcendental function.
* The OpenCV / numpy black-box primitives that the spec declares external
  (Gaussian blur, Laplacian, bilateral filter, cascade face detection,
  colour-space conversion) are supplied through explicit oracle records;
  the 8-bit RGB→HSV conversion is additionally modelled concretely
  (`cvRgb2hsvPix`) following OpenCV's documented formula, so that concrete
  counterexamples can be evaluated.
* `int(x)` on non-negative Python floats is `⌊x⌋`; `.astype(np.uint8)` on
  in-range non-negative data is also `⌊x⌋`.
-/

namespace Heic

/-- `np.clip(x, lo, hi)` over `ℚ`: `minimum(hi, maximum(lo, x))`. -/
def clipQ (x lo hi : ℚ) : ℚ := min hi (max lo x)

/-- `np.clip(x, lo, hi)` over `ℝ`. -/
noncomputable def clipR (x lo hi : ℝ) : ℝ := min hi (max lo x)

/-- `StylePreferences` from `src/heic2jpg/models.py` (four booleans). -/
structure StylePreferences where
  natural_appearance : Bool
  preserve_highlights : Bool
  stable_skin_tones : Bool
  avoid_filter_look : Bool

/-- `EXIFMetadata` from `src/heic2jpg/models.py`; every field optional. -/
structure EXIFMetadata where
  iso : Option ℤ
  exposure_time : Option ℚ
  f_number : Option ℚ
  exposure_compensation : Option ℚ
  flash_fired : Option Bool
  scene_type : Option String
  brightness_value : Option ℚ
  metering_mode : Option String

/-- `ImageMetrics` from `src/heic2jpg/models.py`. -/
structure ImageMetrics where
  exposure_level : ℚ
  contrast_level : ℚ
  shadow_clipping_percent : ℚ
  highlight_clipping_percent : ℚ
  saturation_level : ℚ
  sharpness_score : ℚ
  noise_level : ℚ
  skin_tone_detected : Bool
  skin_tone_hue_range : Option (ℚ × ℚ)
  is_backlit : Bool
  is_low_light : Bool
  exif_data : Option EXIFMetadata

/-- `OptimizationParams` from `src/heic2jpg/models.py`.
`face_relight_strength` lives in `ℝ` because `ImageConverter._apply_optimizations`
overwrites that one field with a value computed from real-valued pixel data. -/
structure OptimizationParams where
  exposure_adjustment : ℚ
  contrast_adjustment : ℚ
  shadow_lift : ℚ
  highlight_recovery : ℚ
  saturation_adjustment : ℚ
  sharpness_amount : ℚ
  noise_reduction : ℚ
  skin_tone_protection : Bool
  face_relight_strength : ℝ

/-! ## OptimizationParamGenerator (`src/heic2jpg/optimizer.py`) -/

/-- `_calculate_exposure_adjustment`: gentle correction towards 0 EV. -/
def calculateExposureAdjustment (prefs : StylePreferences) (m : ImageMetrics) : ℚ :=
  let adjustment : ℚ :=
    if prefs.natural_appearance then -m.exposure_level * 0.5
    else -m.exposure_level * 0.8
  clipQ adjustment (-2) 2

/-- `_calculate_contrast_adjustment`: pivot towards target contrast 0.65. -/
def calculateContrastAdjustment (prefs : StylePreferences) (m : ImageMetrics) : ℚ :=
  let target : ℚ := 0.65
  let adjustment : ℚ :=
    if prefs.natural_appearance then
      if m.contrast_level < target then 1 + (target - m.contrast_level) * 0.3
      else 1 - (m.contrast_level - target) * 0.2
    else
      if m.contrast_level < target then 1 + (target - m.contrast_level) * 0.5
      else 1 - (m.contrast_level - target) * 0.4
  clipQ adjustment 0.5 1.5

/-- `_calculate_highlight_recovery`: tiered recovery; note that when
`preserve_highlights` is false the function returns early, before the
backlit floor is applied. -/
def calculateHighlightRecovery (prefs : StylePreferences) (m : ImageMetrics) : ℚ :=
  if !prefs.preserve_highlights then
    if m.highlight_clipping_percent > 10 then 0.3 else 0
  else
    let recovery : ℚ :=
      if m.highlight_clipping_percent > 10 then
        0.8 + (m.highlight_clipping_percent - 10) / 100
      else if m.highlight_clipping_percent > 5 then
        0.5 + (m.highlight_clipping_percent - 5) / 20
      else if m.highlight_clipping_percent > 1 then
        0.2 + (m.highlight_clipping_percent - 1) / 20
      else 0
    let recovery :=
      if m.is_backlit ∧ m.exposure_level > -0.2 then max recovery 0.12 else recovery
    clipQ recovery 0 1

/-- Truthiness of `metrics.exif_data and metrics.exif_data.flash_fired`. -/
def flashFired (m : ImageMetrics) : Bool :=
  match m.exif_data with
  | none => false
  | some e => e.flash_fired = some true

/-- `_calculate_shadow_lift`. -/
def calculateShadowLift (prefs : StylePreferences) (m : ImageMetrics) : ℚ :=
  let base_lift : ℚ :=
    if m.shadow_clipping_percent > 12 then 0.4
    else if m.shadow_clipping_percent > 6 then 0.2
    else if m.shadow_clipping_percent > 2 then 0.1
    else 0
  let base_lift :=
    if m.is_backlit then
      let backlit_lift : ℚ := 0.18
      let backlit_lift := if m.exposure_level < -0.35 then backlit_lift + 0.08 else backlit_lift
      let backlit_lift :=
        if m.shadow_clipping_percent > 10 then backlit_lift + 0.08 else backlit_lift
      let backlit_lift := if m.exposure_level > 0.2 then backlit_lift - 0.06 else backlit_lift
      let backlit_lift :=
        if m.highlight_clipping_percent > 1 then backlit_lift - 0.05 else backlit_lift
      let backlit_lift := clipQ backlit_lift 0.08 0.32
      max base_lift backlit_lift
    else base_lift
  let base_lift := if flashFired m then base_lift * 0.5 else base_lift
  let lift := if prefs.natural_appearance then base_lift * 0.85 else base_lift
  clipQ lift 0 1

/-- `_calculate_saturation_adjustment`. -/
def calculateSaturationAdjustment (prefs : StylePreferences) (m : ImageMetrics) : ℚ :=
  let target : ℚ := 1
  let adjustment : ℚ :=
    if m.skin_tone_detected ∧ prefs.stable_skin_tones then
      if m.saturation_level < target then 1 + (target - m.saturation_level) * 0.1
      else 1 - (m.saturation_level - target) * 0.1
    else if prefs.avoid_filter_look then
      if m.saturation_level < target then 1 + (target - m.saturation_level) * 0.2
      else 1 - (m.saturation_level - target) * 0.2
    else
      if m.saturation_level < target then 1 + (target - m.saturation_level) * 0.3
      else 1 - (m.saturation_level - target) * 0.3
  clipQ adjustment 0.5 1.5

/-- `_calculate_face_relight_strength`. -/
def calculateFaceRelightStrength (prefs : StylePreferences) (m : ImageMetrics) : ℚ :=
  if !m.is_backlit then 0
  else
    let strength : ℚ := 0.18
    let strength :=
      if m.exposure_level < -0.6 then strength + 0.12
      else if m.exposure_level < -0.2 then strength + 0.06
      else strength
    let strength :=
      if m.shadow_clipping_percent > 10 then strength + 0.12
      else if m.shadow_clipping_percent > 4 then strength + 0.06
      else strength
    let strength := if m.skin_tone_detected then strength + 0.04 else strength
    let strength :=
      if m.highlight_clipping_percent > 6 then strength - 0.08
      else if m.highlight_clipping_percent > 2 then strength - 0.04
      else strength
    let strength := if prefs.natural_appearance then strength * 0.85 else strength
    clipQ strength 0 0.6

/-- `_calculate_sharpness`. -/
def calculateSharpness (prefs : StylePreferences) (m : ImageMetrics) : ℚ :=
  let target : ℚ := 0.65
  let sharpness : ℚ :=
    if m.sharpness_score < target then (target - m.sharpness_score) * 2
    else 0
  let sharpness := if m.noise_level > 0.5 then sharpness * 0.5 else sharpness
  let sharpness := if prefs.natural_appearance then sharpness * 0.7 else sharpness
  clipQ sharpness 0 2

/-- The ISO tier factor inside `_calculate_noise_reduction`. -/
def isoFactor (iso : ℤ) : ℚ :=
  if iso < 400 then 0
  else if iso < 800 then ((iso : ℚ) - 400) / 400 * 0.3
  else if iso < 1600 then 0.3 + ((iso : ℚ) - 800) / 800 * 0.2
  else 0.5 + min (((iso : ℚ) - 1600) / 1600 * 0.4) 0.4

/-- `_calculate_noise_reduction`. -/
def calculateNoiseReduction (m : ImageMetrics) : ℚ :=
  let base_reduction := m.noise_level
  let reduction : ℚ :=
    match m.exif_data with
    | some e =>
      match e.iso with
      | some iso => 0.6 * base_reduction + 0.4 * isoFactor iso
      | none => base_reduction
    | none => base_reduction
  let reduction := if m.is_low_light then min (reduction * 1.2) 1 else reduction
  clipQ reduction 0 1

/-- `OptimizationParamGenerator.generate`. -/
def generate (prefs : StylePreferences) (m : ImageMetrics) : OptimizationParams :=
  { exposure_adjustment := calculateExposureAdjustment prefs m
    contrast_adjustment := calculateContrastAdjustment prefs m
    shadow_lift := calculateShadowLift prefs m
    highlight_recovery := calculateHighlightRecovery prefs m
    saturation_adjustment := calculateSaturationAdjustment prefs m
    sharpness_amount := calculateSharpness prefs m
    noise_reduction := calculateNoiseReduction m
    skin_tone_protection := m.skin_tone_detected ∧ prefs.stable_skin_tones
    face_relight_strength := ((calculateFaceRelightStrength prefs m : ℚ) : ℝ) }

/-- Declared bounds of every numeric `OptimizationParams` field (spec §3). -/
def ParamsInvariant (p : OptimizationParams) : Prop :=
  -2 ≤ p.exposure_adjustment ∧ p.exposure_adjustment ≤ 2 ∧
  0.5 ≤ p.contrast_adjustment ∧ p.contrast_adjustment ≤ 1.5 ∧
  0 ≤ p.shadow_lift ∧ p.shadow_lift ≤ 1 ∧
  0 ≤ p.highlight_recovery ∧ p.highlight_recovery ≤ 1 ∧
  0.5 ≤ p.saturation_adjustment ∧ p.saturation_adjustment ≤ 1.5 ∧
  0 ≤ p.sharpness_amount ∧ p.sharpness_amount ≤ 2 ∧
  0 ≤ p.noise_reduction ∧ p.noise_reduction ≤ 1 ∧
  0 ≤ p.face_relight_strength ∧ p.face_relight_strength ≤ 0.6

/-- Declared bounds of every numeric `ImageMetrics` field (spec §3). -/
def MetricsInvariant (m : ImageMetrics) : Prop :=
  -2 ≤ m.exposure_level ∧ m.exposure_level ≤ 2 ∧
  0 ≤ m.contrast_level ∧ m.contrast_level ≤ 1 ∧
  0 ≤ m.shadow_clipping_percent ∧ m.shadow_clipping_percent ≤ 100 ∧
  0 ≤ m.highlight_clipping_percent ∧ m.highlight_clipping_percent ≤ 100 ∧
  0 ≤ m.saturation_level ∧ m.saturation_level ≤ 2 ∧
  0 ≤ m.sharpness_score ∧ m.sharpness_score ≤ 1 ∧
  0 ≤ m.noise_level ∧ m.noise_level ≤ 1 ∧
  (∀ lo hi, m.skin_tone_hue_range = some (lo, hi) → 0 ≤ lo ∧ lo ≤ hi ∧ hi ≤ 360)

/-! ## ImageAnalyzer (`src/heic_converter/analyzer.py`)

The pixel buffer is an `h×w` grid of 8-bit RGB triples, modelled as a
dimension pair plus an indexing function (row `y`, column `x`). -/

/-- An 8-bit RGB pixel buffer (`NDArray[np.uint8]` of shape `h×w×3`). -/
structure UImage where
  h : ℕ
  w : ℕ
  pix : ℕ → ℕ → ℕ × ℕ × ℕ

/-- The PixelBuffer invariant: positive dimensions, all samples in `[0,255]`. -/
def ValidU (img : UImage) : Prop :=
  0 < img.h ∧ 0 < img.w ∧
  ∀ y < img.h, ∀ x < img.w,
    (img.pix y x).1 ≤ 255 ∧ (img.pix y x).2.1 ≤ 255 ∧ (img.pix y x).2.2 ≤ 255

/-- `cv2.cvtColor(..., cv2.COLOR_RGB2GRAY)` per pixel: OpenCV's fixed-point
formula `(R*4899 + G*9617 + B*1868 + 8192) >> 14` (coefficients 0.299 /
0.587 / 0.114 scaled by 2^14, rounding to nearest). -/
def grayPix (p : ℕ × ℕ × ℕ) : ℕ :=
  (4899 * p.1 + 9617 * p.2.1 + 1868 * p.2.2 + 8192) / 16384

/-- Round half up, `⌊x + 1/2⌋`, used by the modelled OpenCV conversions. -/
def roundQ (x : ℚ) : ℤ := ⌊x + 1 / 2⌋

/-- `cv2.cvtColor(..., cv2.COLOR_RGB2HSV)` per 8-bit pixel, following
OpenCV's documented formula: `V = max(R,G,B)`;
`S = round(255*(V-min)/V)` (0 when `V = 0`); hue on the half-degree scale
`H = round(30*(G-B)/diff)` shifted by 60/120 degrees according to which
channel attains the maximum, wrapped into `[0,179]`. -/
def cvRgb2hsvPix (p : ℕ × ℕ × ℕ) : ℕ × ℕ × ℕ :=
  let r : ℚ := p.1
  let g : ℚ := p.2.1
  let b : ℚ := p.2.2
  let v : ℚ := max r (max g b)
  let mn : ℚ := min r (min g b)
  let diff : ℚ := v - mn
  let s : ℕ := if v = 0 then 0 else (roundQ (255 * diff / v)).toNat
  let hraw : ℤ :=
    if diff = 0 then 0
    else if v = r then roundQ (30 * (g - b) / diff)
    else if v = g then roundQ (60 + 30 * (b - r) / diff)
    else roundQ (120 + 30 * (r - g) / diff)
  let hfin : ℕ := if hraw < 0 then (hraw + 180).toNat else hraw.toNat
  (hfin, s, v.num.toNat)

/-- Oracle for the numeric black-box primitives used by the analyzer
(spec §1 lists them as external collaborators): `np.log2`, the square
root inside `np.std`, `cv2.Laplacian`, `cv2.GaussianBlur` and
`cv2.cvtColor(..., COLOR_RGB2HSV)`. The HSV conversion returns 8-bit
channels, which is recorded as a saturation bound. -/
structure CVOracle where
  log2 : ℚ → ℚ
  sqrtv : ℚ → ℚ
  laplacian : (ℕ → ℕ → ℕ) → ℕ → ℕ → ℕ → ℕ → ℚ
  gblur5 : (ℕ → ℕ → ℚ) → ℕ → ℕ → ℕ → ℕ → ℚ
  rgb2hsv : ℕ × ℕ × ℕ → ℕ × ℕ × ℕ
  rgb2hsv_sat_le : ∀ p, (rgb2hsv p).2.1 ≤ 255

/-- Row-major flattening of the pixel grid. -/
def pixList (img : UImage) : List (ℕ × ℕ × ℕ) :=
  (List.range img.h).flatMap fun y => (List.range img.w).map fun x => img.pix y x

/-- Flattened grayscale plane. -/
def grayList (img : UImage) : List ℕ := (pixList img).map grayPix

/-- Grayscale plane as a 2-d grid. -/
def grayGrid (img : UImage) : ℕ → ℕ → ℕ := fun y x => grayPix (img.pix y x)

/-- Normalised 256-bin histogram entry: `hist[v] = count(v) / total`. -/
def histF (img : UImage) (v : ℕ) : ℚ :=
  ((grayList img).count v : ℚ) / ((grayList img).length : ℚ)

/-- `np.cumsum(hist)[i]`: the sum of the first `i+1` normalised bins. -/
def cumsumF (img : UImage) (i : ℕ) : ℚ :=
  ∑ v ∈ Finset.range (i + 1), histF img v

/-- Fuel-driven left scan: the first index `≥ start` (within `fuel` steps)
whose cumulative value reaches `v`; models `np.searchsorted(cumsum, v)`
on the (sorted) cumulative histogram. -/
def firstGe (c : ℕ → ℚ) (v : ℚ) : ℕ → ℕ → ℕ
  | start, 0 => start
  | start, fuel + 1 => if v ≤ c start then start else firstGe c v (start + 1) fuel

/-- `np.searchsorted(cumsum, q)` over the 256-entry cumulative histogram. -/
def searchSorted (img : UImage) (q : ℚ) : ℕ := firstGe (cumsumF img) q 0 256

/-- Mean of a rational list (`np.mean`; empty input handled by the
`0 / 0 = 0` convention of `ℚ`). -/
def meanQ (l : List ℚ) : ℚ := l.sum / (l.length : ℚ)

/-- `np.var` (population variance, `ddof = 0`). -/
def varQ (l : List ℚ) : ℚ := meanQ (l.map fun x => (x - meanQ l) ^ 2)

namespace Analyzer

/-- `ImageAnalyzer._calculate_exposure`: weighted mean of the middle
cumulative-percentile range of the luminance histogram, converted to EV
via `log2`, plus EXIF exposure compensation, clamped to `[-2,2]`. -/
def calculateExposure (O : CVOracle) (img : UImage) (exif : Option EXIFMetadata) : ℚ :=
  let lowerIdx := searchSorted img 0.25
  let upperIdx := searchSorted img 0.75
  let den := ∑ i ∈ Finset.Icc lowerIdx upperIdx, histF img i
  let num := ∑ i ∈ Finset.Icc lowerIdx upperIdx, (i : ℚ) * histF img i
  let meanLuminance : ℚ :=
    if 0 < den then num / den / 255
    else meanQ ((grayList img).map (fun n => (n : ℚ))) / 255
  let exposureEv : ℚ :=
    if 0 < meanLuminance then O.log2 (meanLuminance / 0.5) else -2
  let exposureEv :=
    match exif with
    | some e =>
      match e.exposure_compensation with
      | some comp => exposureEv + comp
      | none => exposureEv
    | none => exposureEv
  clipQ exposureEv (-2) 2

/-- `ImageAnalyzer._calculate_contrast`: `std(gray) / 128`, clamped. -/
def calculateContrast (O : CVOracle) (img : UImage) : ℚ :=
  let stdDev := O.sqrtv (varQ ((grayList img).map fun n => (n : ℚ)))
  clipQ (stdDev / 128) 0 1

/-- `ImageAnalyzer._detect_clipping`: percentage of luminance samples at or
below 5 (shadows) and at or above 250 (highlights). -/
def detectClipping (img : UImage) : ℚ × ℚ :=
  let total : ℚ := ((grayList img).length : ℚ)
  let shadow := (((grayList img).filter fun v => v ≤ 5).length : ℚ) / total * 100
  let highlight := (((grayList img).filter fun v => 250 ≤ v).length : ℚ) / total * 100
  (shadow, highlight)

/-- `ImageAnalyzer._calculate_saturation`: mean HSV saturation `/255*2`. -/
def calculateSaturation (O : CVOracle) (img : UImage) : ℚ :=
  let satMean := meanQ ((pixList img).map fun p => ((O.rgb2hsv p).2.1 : ℚ))
  satMean / 255 * 2

/-- `ImageAnalyzer._calculate_sharpness`: Laplacian variance `/1000`, clamped. -/
def calculateSharpness (O : CVOracle) (img : UImage) : ℚ :=
  let lap := O.laplacian (grayGrid img) img.h img.w
  let lapList := (List.range img.h).flatMap fun y => (List.range img.w).map fun x => lap y x
  clipQ (varQ lapList / 1000) 0 1

/-- `ImageAnalyzer._estimate_noise`: std-dev of the high-pass residual
(`gray − GaussianBlur(gray)`) `/20`, blended with an ISO factor when ISO
metadata is present, clamped to `[0,1]`. -/
def estimateNoise (O : CVOracle) (img : UImage) (exif : Option EXIFMetadata) : ℚ :=
  let grayQ : ℕ → ℕ → ℚ := fun y x => (grayGrid img y x : ℚ)
  let blurred := O.gblur5 grayQ img.h img.w
  let highFreq : ℕ → ℕ → ℚ := fun y x => grayQ y x - blurred y x
  let hfList := (List.range img.h).flatMap fun y => (List.range img.w).map fun x => highFreq y x
  let noiseStd := O.sqrtv (varQ hfList)
  let noiseFromAnalysis := noiseStd / 20
  let noiseLevel : ℚ :=
    match exif with
    | some e =>
      match e.iso with
      | some iso => 0.6 * noiseFromAnalysis + 0.4 * min ((iso : ℚ) / 3200) 1
      | none => noiseFromAnalysis
    | none => noiseFromAnalysis
  clipQ noiseLevel 0 1

/-- `SKIN_TONE_HUE_MAX * 179 / 360` with Python `int()` truncation:
`int(50 * 179 / 360) = 24`. -/
def hueMaxCv : ℕ := 50 * 179 / 360

/-- The skin mask applied to an OpenCV HSV triple: hue in
`[0, hueMaxCv]`, saturation in `[20,170]`, value `≥ 50`. -/
def skinMask (hsv : ℕ × ℕ × ℕ) : Bool :=
  hsv.1 ≤ hueMaxCv ∧ 20 ≤ hsv.2.1 ∧ hsv.2.1 ≤ 170 ∧ 50 ≤ hsv.2.2

/-- `ImageAnalyzer._detect_skin_tones`: detected when strictly more than 5%
of the pixels satisfy the mask; the hue range is the min/max matching hue
rescaled to degrees (`*360/179`). -/
def detectSkinTones (O : CVOracle) (img : UImage) : Bool × Option (ℚ × ℚ) :=
  let hsvL := (pixList img).map O.rgb2hsv
  let skinHues := (hsvL.filter skinMask).map fun p => p.1
  let skinPixels : ℚ := (skinHues.length : ℚ)
  let totalPixels : ℚ := ((img.h * img.w : ℕ) : ℚ)
  let skinPercent := skinPixels / totalPixels * 100
  if 5 < skinPercent then
    match skinHues.min?, skinHues.max? with
    | some mn, some mx => (true, some ((mn : ℚ) * 360 / 179, (mx : ℚ) * 360 / 179))
    | _, _ => (false, none)
  else (false, none)

/-- Mean luminance of the rectangle `[y0,y1) × [x0,x1)` of the gray plane
(`np.mean` over a 2-d slice; an empty slice yields `0/0 = 0` here where
numpy would produce NaN — only reachable for degenerate dimensions). -/
def meanRect (g : ℕ → ℕ → ℚ) (y0 y1 x0 x1 : ℕ) : ℚ :=
  (∑ y ∈ Finset.Ico y0 y1, ∑ x ∈ Finset.Ico x0 x1, g y x) /
    (((y1 - y0) * (x1 - x0) : ℕ) : ℚ)

/-- `ImageAnalyzer._detect_backlit_subject`: compares the central 40%×40%
region's mean luminance with the mean of four 20%-thick edge strips.
A zero `edge_thickness` reproduces Python's `gray[-0:]` slices, which
cover the whole plane. -/
def detectBacklitSubject (img : UImage) : Bool :=
  let g : ℕ → ℕ → ℚ := fun y x => (grayGrid img y x : ℚ)
  let h := img.h
  let w := img.w
  let center := meanRect g (3 * h / 10) (7 * h / 10) (3 * w / 10) (7 * w / 10)
  let t := min h w / 5
  let top := meanRect g 0 t 0 w
  let bottom := if t = 0 then meanRect g 0 h 0 w else meanRect g (h - t) h 0 w
  let left := meanRect g 0 h 0 t
  let right := if t = 0 then meanRect g 0 h 0 w else meanRect g 0 h (w - t) w
  let edge := (top + bottom + left + right) / 4
  if 0 < edge then decide (1.5 < edge / (center + 1 / 1000000)) else false

/-- `ImageAnalyzer._detect_low_light`. -/
def detectLowLight (img : UImage) (exif : Option EXIFMetadata) : Bool :=
  let meanLuminance := meanQ ((grayList img).map fun n => (n : ℚ)) / 255
  let isDark : Bool := decide (meanLuminance < 0.3)
  let highIso : Bool :=
    match exif with
    | some e => match e.iso with | some iso => decide (800 < iso) | none => false
    | none => false
  let slowShutter : Bool :=
    match exif with
    | some e => match e.exposure_time with | some t => decide ((1 : ℚ) / 30 < t) | none => false
    | none => false
  decide (meanLuminance < 0.2) ∨ (isDark ∧ (highIso ∨ slowShutter))

/-- `ImageAnalyzer.analyze`: assembles all metrics. -/
def analyze (O : CVOracle) (img : UImage) (exif : Option EXIFMetadata) : ImageMetrics :=
  let clps := detectClipping img
  let skin := detectSkinTones O img
  { exposure_level := calculateExposure O img exif
    contrast_level := calculateContrast O img
    shadow_clipping_percent := clps.1
    highlight_clipping_percent := clps.2
    saturation_level := calculateSaturation O img
    sharpness_score := calculateSharpness O img
    noise_level := estimateNoise O img exif
    skin_tone_detected := skin.1
    skin_tone_hue_range := skin.2
    is_backlit := detectBacklitSubject img
    is_low_light := detectLowLight img exif
    exif_data := exif }

end Analyzer

/-! ## ImageConverter (`src/heic2jpg/converter.py`)

The transform applier works on a float copy of the buffer; fractional
`np.power` exponents force the embedding into `ℝ` (classical reasoning,
hence the `open Classical` instances below). -/

/-- A face rectangle `(x, y, w, h)` in pixel coordinates. -/
structure FaceRegion where
  x : ℕ
  y : ℕ
  w : ℕ
  h : ℕ

/-- A float RGB buffer (`NDArray[np.float32]`, nominally in `[0,1]`). -/
structure RImage where
  h : ℕ
  w : ℕ
  pix : ℕ → ℕ → ℝ × ℝ × ℝ

/-- Luminance `0.299R + 0.587G + 0.114B` of a float pixel. -/
noncomputable def lumR (p : ℝ × ℝ × ℝ) : ℝ :=
  0.299 * p.1 + 0.587 * p.2.1 + 0.114 * p.2.2

/-- Apply a scalar function to each channel. -/
def mapPix (f : ℝ → ℝ) (p : ℝ × ℝ × ℝ) : ℝ × ℝ × ℝ := (f p.1, f p.2.1, f p.2.2)

/-- `image.astype(np.float32) / 255.0`. -/
noncomputable def toFloatImage (img : UImage) : RImage :=
  ⟨img.h, img.w, fun y x =>
    (((img.pix y x).1 : ℝ) / 255, ((img.pix y x).2.1 : ℝ) / 255, ((img.pix y x).2.2 : ℝ) / 255)⟩

open Classical in
/-- `(img_float * 255.0).astype(np.uint8)` after the final `np.clip`:
truncation of the clamped, rescaled samples. -/
noncomputable def toUint8Clip (img : RImage) : UImage :=
  ⟨img.h, img.w, fun y x =>
    ((⌊clipR (img.pix y x).1 0 1 * 255⌋).toNat,
     (⌊clipR (img.pix y x).2.1 0 1 * 255⌋).toNat,
     (⌊clipR (img.pix y x).2.2 0 1 * 255⌋).toNat)⟩

open Classical in
/-- `(image * 255.0).astype(np.uint8)` (used before the OpenCV stages). -/
noncomputable def toUint8Raw (img : RImage) : UImage :=
  ⟨img.h, img.w, fun y x =>
    ((⌊(img.pix y x).1 * 255⌋).toNat,
     (⌊(img.pix y x).2.1 * 255⌋).toNat,
     (⌊(img.pix y x).2.2 * 255⌋).toNat)⟩

/-- Oracle for the OpenCV black boxes used by `ImageConverter`: presence of
the Haar cascade, `cv2.resize`, `detectMultiScale`, the HSV round-trip of
`_adjust_saturation`, `cv2.bilateralFilter` and the 5×5 `cv2.GaussianBlur`
of `_sharpen`. `resizePix` maps a gray plane with source dimensions to a
destination plane; `cascade` takes a gray plane, its dimensions and the
minimum face size. -/
structure ApplyOracle where
  hasDetector : Bool
  resizePix : (ℕ → ℕ → ℕ) → ℕ → ℕ → ℕ → ℕ → (ℕ → ℕ → ℕ)
  cascade : (ℕ → ℕ → ℕ) → ℕ → ℕ → ℕ → List FaceRegion
  rgb2hsvA : ℕ × ℕ × ℕ → ℕ × ℕ × ℕ
  hsv2rgbA : ℕ × ℕ × ℕ → ℕ × ℕ × ℕ
  bilateral : UImage → ℕ → ℚ → ℕ → UImage
  gauss5U : UImage → UImage

/-- `FACE_DETECT_MAX_DIMENSION`-based downscale factor of `_detect_faces`:
`max_dimension / 1280` when the longer side exceeds 1280, else 1. -/
def detectScale (h w : ℕ) : ℚ :=
  if 1280 < max h w then ((max h w : ℕ) : ℚ) / 1280 else 1

/-- Shape `(rows, cols)` of the detection image of `_detect_faces`
(`max(1, int(side / scale))` per side when downscaling). -/
def detectDims (h w : ℕ) : ℕ × ℕ :=
  if 1 < detectScale h w then
    (max 1 (Int.toNat ⌊(h : ℚ) / detectScale h w⌋),
     max 1 (Int.toNat ⌊(w : ℚ) / detectScale h w⌋))
  else (h, w)

/-- `min_size = max(24, int(min(detect_image.shape[:2]) * 0.04))`. -/
def minSizeDetect (h w : ℕ) : ℕ :=
  max 24 (Int.toNat ⌊((min (detectDims h w).1 (detectDims h w).2 : ℕ) : ℚ) * 0.04⌋)

/-- `ImageConverter._detect_faces`: Haar-cascade fallback with optional
downscaling, minimum-size computation, coordinate scale-back and
zero-area filtering. -/
def detectFaces (O : ApplyOracle) (img : UImage) : List FaceRegion :=
  if O.hasDetector = false then []
  else
    let g := Heic.grayGrid img
    let scale := detectScale img.h img.w
    let dims := detectDims img.h img.w
    let detectImage : ℕ → ℕ → ℕ :=
      if 1 < scale then O.resizePix g img.h img.w dims.1 dims.2 else g
    let minSize := minSizeDetect img.h img.w
    let detections := O.cascade detectImage dims.1 dims.2 minSize
    let detections :=
      if 1 < scale then
        detections.map fun r =>
          ⟨Int.toNat ⌊(r.x : ℚ) * scale⌋, Int.toNat ⌊(r.y : ℚ) * scale⌋,
           Int.toNat ⌊(r.w : ℚ) * scale⌋, Int.toNat ⌊(r.h : ℚ) * scale⌋⟩
      else detections
    detections.filter fun r => 0 < r.w ∧ 0 < r.h

/-- The two-line priority policy of `_apply_optimizations` (lines 210–213):
the fallback detector runs only when the embedded extraction is empty. -/
def detectorFaceRegions (O : ApplyOracle) (img : UImage)
    (embedded : List FaceRegion) : List FaceRegion :=
  if embedded.isEmpty then detectFaces O img else []

/-- `face_regions = embedded_face_regions or detector_face_regions`. -/
def consumedFaceRegions (embedded detector : List FaceRegion) : List FaceRegion :=
  if embedded.isEmpty then detector else embedded

/-- `_adjust_exposure`: multiply all channels by `2^EV`, clamp. -/
noncomputable def adjustExposure (img : RImage) (adjustmentEv : ℚ) : RImage :=
  let multiplier : ℝ := (2 : ℝ) ^ ((adjustmentEv : ℚ) : ℝ)
  ⟨img.h, img.w, fun y x => mapPix (fun c => clipR (c * multiplier) 0 1) (img.pix y x)⟩

/-- `_adjust_contrast`: `(x - 0.5) * multiplier + 0.5`, clamp. -/
noncomputable def adjustContrast (img : RImage) (multiplier : ℚ) : RImage :=
  ⟨img.h, img.w, fun y x =>
    mapPix (fun c => clipR ((c - 0.5) * (multiplier : ℝ) + 0.5) 0 1) (img.pix y x)⟩

/-- `_lift_shadows`: soft shadow mask `clip((0.55-l)/0.55, 0, 1)^1.8`,
gain `1 + amount * mask`, clamp. -/
noncomputable def liftShadows (img : RImage) (amount : ℚ) : RImage :=
  ⟨img.h, img.w, fun y x =>
    let l := lumR (img.pix y x)
    let shadowMask := clipR ((0.55 - l) / 0.55) 0 1 ^ (1.8 : ℝ)
    let gain := 1 + (amount : ℝ) * shadowMask
    mapPix (fun c => clipR (c * gain) 0 1) (img.pix y x)⟩

/-- `_recover_highlights`: soft-knee compression of pixels whose luminance
exceeds 0.7, by `amount * 0.3 * (luminance - 0.7)`. -/
noncomputable def recoverHighlights (img : RImage) (amount : ℝ) : RImage :=
  ⟨img.h, img.w, fun y x =>
    let l := lumR (img.pix y x)
    let threshold : ℝ := 0.7
    let compressionFactor : ℝ := 1 - amount * 0.3
    let maskv : ℝ := if threshold < l then 1 else 0
    let compression := maskv * (1 - compressionFactor) * (l - threshold)
    mapPix (fun c => clipR (c - compression) 0 1) (img.pix y x)⟩

open Classical in
/-- `_estimate_highlight_clipping_percent` on a float RGB image. -/
noncomputable def estimateHighlightClippingPercent (img : RImage) : ℝ :=
  (((Finset.range img.h ×ˢ Finset.range img.w).filter
      (fun p => (250 : ℝ) / 255 ≤ lumR (img.pix p.1 p.2))).card : ℝ) /
    ((img.h * img.w : ℕ) : ℝ) * 100

open Classical in
/-- `_calculate_auto_highlight_recovery`: conservative extra recovery,
active only after a brightening step and above the 0.7% trigger. -/
noncomputable def calculateAutoHighlightRecovery (img : RImage)
    (params : OptimizationParams) : ℝ :=
  let hasBrighteningStep :=
    0 < params.exposure_adjustment ∨ 1 < params.contrast_adjustment ∨ 0 < params.shadow_lift
  if ¬hasBrighteningStep then 0
  else
    let highlightClipping := estimateHighlightClippingPercent img
    if highlightClipping ≤ 0.7 then 0
    else clipR (0.10 + (highlightClipping - 0.7) * 0.04) 0 0.45

/-- Flattened luminance plane (row-major), as used by `np.quantile` and
`np.mean` inside `_estimate_auto_face_relight_strength`. -/
noncomputable def flattenLum (img : RImage) : List ℝ :=
  (List.range img.h).flatMap fun y => (List.range img.w).map fun x => lumR (img.pix y x)

open Classical in
/-- `np.quantile(..., q)` with the default linear interpolation:
position `q*(n-1)` between the order statistics. -/
noncomputable def quantileR (l : List ℝ) (q : ℝ) : ℝ :=
  let s := l.mergeSort fun a b => decide (a ≤ b)
  let m := l.length - 1
  let pos : ℝ := q * (m : ℝ)
  let i := (⌊pos⌋).toNat
  let frac : ℝ := pos - (⌊pos⌋ : ℝ)
  s.getD i 0 + frac * (s.getD (min (i + 1) m) 0 - s.getD i 0)

/-- Mean luminance of the (bound-clamped) slice
`luminance[y:y+h, x:x+w]` of a float image. -/
noncomputable def regionLumMean (img : RImage) (r : FaceRegion) : ℝ :=
  (∑ y ∈ Finset.Ico (min r.y img.h) (min (r.y + r.h) img.h),
    ∑ x ∈ Finset.Ico (min r.x img.w) (min (r.x + r.w) img.w), lumR (img.pix y x)) /
    (((min (r.y + r.h) img.h - min r.y img.h) * (min (r.x + r.w) img.w - min r.x img.w) : ℕ) : ℝ)

open Classical in
/-- `_estimate_auto_face_relight_strength`: conservative strength from the
gap between face-region luminance and scene/bright-reference luminance. -/
noncomputable def estimateAutoFaceRelightStrength (img : RImage)
    (faceRegions : List FaceRegion) : ℝ :=
  if faceRegions.isEmpty then 0
  else
    let lums := flattenLum img
    let sceneMean := lums.sum / (lums.length : ℝ)
    let brightReference := quantileR lums 0.90
    let faceMeans :=
      (faceRegions.filter fun r => 0 < r.w ∧ 0 < r.h).map fun r => regionLumMean img r
    if faceMeans.isEmpty then 0
    else
      let faceMean := faceMeans.sum / (faceMeans.length : ℝ)
      if 0.62 ≤ faceMean then 0
      else if brightReference < 0.72 then 0
      else
        let darknessGap := max 0 (sceneMean - faceMean)
        let brightGap := max 0 (brightReference - faceMean)
        if darknessGap < 0.05 ∧ brightGap < 0.18 then 0
        else clipR (0.14 + darknessGap * 0.9 + brightGap * 0.35) 0 0.45

open Classical in
/-- Contribution of one face region to the elliptical relight mask at grid
point `(yy, xx)`: zero for undersized regions, outside the (clamped)
bounding box, or for a degenerate box; otherwise
`clip(1 - normalized_distance, 0, 1)^1.5`. -/
noncomputable def regionMaskContrib (width height : ℕ) (r : FaceRegion)
    (yy xx : ℕ) : ℝ :=
  if r.w < 8 ∨ r.h < 8 then 0
  else
    let centerX : ℝ := (r.x : ℝ) + (r.w : ℝ) * 0.5
    let centerY : ℝ := (r.y : ℝ) + (r.h : ℝ) * 0.52
    let radiusX : ℝ := max 4 ((r.w : ℝ) * 0.95)
    let radiusY : ℝ := max 4 ((r.h : ℝ) * 1.20)
    let left : ℤ := max 0 ⌊centerX - radiusX * 1.6⌋
    let right : ℤ := min (width : ℤ) ⌊centerX + radiusX * 1.6⌋
    let top : ℤ := max 0 ⌊centerY - radiusY * 1.4⌋
    let bottom : ℤ := min (height : ℤ) ⌊centerY + radiusY * 1.4⌋
    if right ≤ left ∨ bottom ≤ top then 0
    else if left ≤ (xx : ℤ) ∧ (xx : ℤ) < right ∧ top ≤ (yy : ℤ) ∧ (yy : ℤ) < bottom then
      let normalizedDistance :=
        (((xx : ℝ) - centerX) / radiusX) ^ 2 + (((yy : ℝ) - centerY) / radiusY) ^ 2
      clipR (1 - normalizedDistance) 0 1 ^ (1.5 : ℝ)
    else 0

/-- The combined relight mask (`np.maximum` over per-region contributions,
starting from the zero plane). -/
noncomputable def relightMask (width height : ℕ) (faceRegions : List FaceRegion)
    (yy xx : ℕ) : ℝ :=
  faceRegions.foldl (fun acc r => max acc (regionMaskContrib width height r yy xx)) 0

/-- `mask.max()` over the pixel grid. -/
noncomputable def relightMaskMax (img : RImage) (faceRegions : List FaceRegion) : ℝ :=
  (Finset.range img.h ×ˢ Finset.range img.w).fold max 0
    (fun p => relightMask img.w img.h faceRegions p.1 p.2)

open Classical in
/-- `_relight_faces`: gain `1 + amount * mask * dark_weight * highlight_guard * 0.9`
with `dark_weight = clip((0.75-l)/0.75,0,1)^0.8` and
`highlight_guard = clip((0.95-l)/0.2,0,1)`, clamped to `[0,1]`. -/
noncomputable def relightFaces (img : RImage) (faceRegions : List FaceRegion)
    (amount : ℝ) : RImage :=
  if faceRegions.isEmpty then img
  else if relightMaskMax img faceRegions ≤ 0 then img
  else
    ⟨img.h, img.w, fun y x =>
      let l := lumR (img.pix y x)
      let darkWeight := clipR ((0.75 - l) / 0.75) 0 1 ^ (0.8 : ℝ)
      let highlightGuard := clipR ((0.95 - l) / 0.2) 0 1
      let localStrength := amount * relightMask img.w img.h faceRegions y x *
        darkWeight * highlightGuard
      let gain := 1 + localStrength * 0.9
      mapPix (fun c => clipR (c * gain) 0 1) (img.pix y x)⟩

open Classical in
/-- `_adjust_saturation`: HSV round-trip (through the oracle conversions)
that multiplies the saturation channel, with optional 50% protection of
the skin-hue band `[0,25]`. -/
noncomputable def adjustSaturation (O : ApplyOracle) (img : RImage)
    (multiplier : ℚ) (protectSkinTones : Bool) : RImage :=
  ⟨img.h, img.w, fun y x =>
    let p8 := (toUint8Raw img).pix y x
    let hsv := O.rgb2hsvA p8
    let hue : ℕ := hsv.1
    let originalSaturation : ℝ := (hsv.2.1 : ℝ)
    let newSat : ℝ := originalSaturation * (multiplier : ℝ)
    let newSat : ℝ :=
      if protectSkinTones ∧ hue ≤ 25 then
        originalSaturation * (1 + ((multiplier : ℝ) - 1) * 0.5)
      else newSat
    let newSat := clipR newSat 0 255
    let rgb := O.hsv2rgbA (hsv.1, (⌊newSat⌋).toNat, hsv.2.2)
    ((rgb.1 : ℝ) / 255, (rgb.2.1 : ℝ) / 255, (rgb.2.2 : ℝ) / 255)⟩

/-- `_reduce_noise`: bilateral filter with diameter `5 + amount*10` and
`sigma_color = 25 + amount*50`, through the oracle. -/
noncomputable def reduceNoise (O : ApplyOracle) (img : RImage) (amount : ℚ) : RImage :=
  let diameter : ℕ := (Int.toNat ⌊(5 : ℚ) + amount * 10⌋)
  let sigmaColor : ℚ := 25 + amount * 50
  let denoised := O.bilateral (toUint8Raw img) diameter sigmaColor diameter
  ⟨img.h, img.w, fun y x =>
    (((denoised.pix y x).1 : ℝ) / 255, ((denoised.pix y x).2.1 : ℝ) / 255,
     ((denoised.pix y x).2.2 : ℝ) / 255)⟩

/-- `cv2.addWeighted` on 8-bit data: `saturate_cast(round(α·a + β·b))`. -/
def addWeightedU8 (alpha : ℚ) (a : ℕ) (beta : ℚ) (b : ℕ) : ℕ :=
  (min 255 (max 0 (roundQ (alpha * a + beta * b)))).toNat

/-- `_sharpen`: unsharp mask `original*(1+amount) - blurred*amount` on the
8-bit data, Gaussian blur through the oracle. -/
noncomputable def sharpen (O : ApplyOracle) (img : RImage) (amount : ℚ) : RImage :=
  let imgU8 := toUint8Raw img
  let blurred := O.gauss5U imgU8
  ⟨img.h, img.w, fun y x =>
    let a := imgU8.pix y x
    let b := blurred.pix y x
    ((addWeightedU8 (1 + amount) a.1 (-amount) b.1 : ℕ) / (255 : ℝ),
     (addWeightedU8 (1 + amount) a.2.1 (-amount) b.2.1 : ℕ) / (255 : ℝ),
     (addWeightedU8 (1 + amount) a.2.2 (-amount) b.2.2 : ℕ) / (255 : ℝ))⟩

open Classical in
/-- `ImageConverter._apply_optimizations`: the fixed eight-stage pipeline.
The Python code mutates `params.face_relight_strength` in place; the
embedding returns the updated parameter record alongside the requantized
buffer. `embedded` is the result of `_extract_embedded_face_regions`. -/
noncomputable def applyOptimizations (O : ApplyOracle) (image : UImage)
    (params : OptimizationParams) (embedded : List FaceRegion) :
    UImage × OptimizationParams :=
  let faceRelightStrength := clipR params.face_relight_strength 0 0.6
  let detectorRegions := detectorFaceRegions O image embedded
  let imgFloat := toFloatImage image
  let imgFloat :=
    if 0.01 < |params.exposure_adjustment| then
      adjustExposure imgFloat params.exposure_adjustment
    else imgFloat
  let imgFloat :=
    if 0.01 < |params.contrast_adjustment - 1| then
      adjustContrast imgFloat params.contrast_adjustment
    else imgFloat
  let imgFloat :=
    if 0.01 < params.shadow_lift then liftShadows imgFloat params.shadow_lift
    else imgFloat
  let effectiveHighlightRecovery : ℝ :=
    max ((params.highlight_recovery : ℚ) : ℝ) (calculateAutoHighlightRecovery imgFloat params)
  let imgFloat :=
    if 0.01 < effectiveHighlightRecovery then
      recoverHighlights imgFloat effectiveHighlightRecovery
    else imgFloat
  let faceRegions := consumedFaceRegions embedded detectorRegions
  let step5 : RImage × ℝ :=
    if faceRegions.isEmpty then (imgFloat, 0)
    else
      let frs :=
        if faceRelightStrength < 0.08 then
          max faceRelightStrength (estimateAutoFaceRelightStrength imgFloat faceRegions)
        else faceRelightStrength
      if 0.08 ≤ frs then (relightFaces imgFloat faceRegions frs, frs)
      else (imgFloat, 0)
  let imgFloat := step5.1
  let imgFloat :=
    if 0.01 < |params.saturation_adjustment - 1| then
      adjustSaturation O imgFloat params.saturation_adjustment params.skin_tone_protection
    else imgFloat
  let imgFloat :=
    if 0.01 < params.noise_reduction then reduceNoise O imgFloat params.noise_reduction
    else imgFloat
  let imgFloat :=
    if 0.01 < params.sharpness_amount then sharpen O imgFloat params.sharpness_amount
    else imgFloat
  (toUint8Clip imgFloat, { params with face_relight_strength := step5.2 })

/-- Mean absolute per-pixel, per-channel change between two 8-bit buffers
of the first buffer's dimensions, on the normalised `[0,1]` scale. -/
noncomputable def avgAbsChange (a b : UImage) : ℝ :=
  (∑ p ∈ Finset.range a.h ×ˢ Finset.range a.w,
    (|((a.pix p.1 p.2).1 : ℝ) - ((b.pix p.1 p.2).1 : ℝ)| +
     |((a.pix p.1 p.2).2.1 : ℝ) - ((b.pix p.1 p.2).2.1 : ℝ)| +
     |((a.pix p.1 p.2).2.2 : ℝ) - ((b.pix p.1 p.2).2.2 : ℝ)|) / 3) /
    ((a.h * a.w : ℕ) : ℝ) / 255

/-! ## `ImageConverter.convert` error handling -/

/-- `ConversionStatus` from `src/heic2jpg/models.py`. -/
inductive ConversionStatus where
  | success
  | failed
  | skipped

/-- `ConversionResult` (paths abstracted to strings; timing omitted). -/
structure ConversionResult where
  input_path : String
  output_path : Option String
  status : ConversionStatus
  error_message : Option String

/-- `ImageConverter.convert`: the entire body runs under a
`try/except Exception` whose handler builds a FAILED result with message
`"Conversion failed: " ++ str(e)`. The decode, optimize and encode steps
are abstracted as `Except`-valued computations (raising = `Except.error`). -/
def convert {α β : Type} (inputPath outputPath : String)
    (decodeStep : Except String α) (optimizeStep : α → Except String β)
    (encodeStep : β → Except String Unit) : ConversionResult :=
  let pipeline : Except String Unit := do
    let decoded ← decodeStep
    let optimized ← optimizeStep decoded
    encodeStep optimized
  match pipeline with
  | Except.ok _ =>
    { input_path := inputPath
      output_path := some outputPath
      status := ConversionStatus.success
      error_message := none }
  | Except.error e =>
    { input_path := inputPath
      output_path := none
      status := ConversionStatus.failed
      error_message := some (String.append "Conversion failed: " e) }

/-! ## Concrete instances used by witnesses and counterexamples -/

/-- The skin mask as worded by the spec: hue ∈ `[0,25]`,
saturation ∈ `[20,170]`, value ≥ 50 (refinement comparison target for the
code's `skinMask`, whose hue bound is `int(50*179/360) = 24`). -/
def specSkinMask (hsv : ℕ × ℕ × ℕ) : Bool :=
  hsv.1 ≤ 25 ∧ 20 ≤ hsv.2.1 ∧ hsv.2.1 ≤ 170 ∧ 50 ≤ hsv.2.2

/-- Trivial analyzer oracle (all black boxes constant). -/
def trivCVOracle : CVOracle :=
  { log2 := fun _ => 0
    sqrtv := fun _ => 0
    laplacian := fun _ _ _ _ _ => 0
    gblur5 := fun _ _ _ _ _ => 0
    rgb2hsv := fun _ => (0, 0, 0)
    rgb2hsv_sat_le := fun _ => by norm_num }

/-- Analyzer oracle whose HSV conversion is the modelled OpenCV formula. -/
def cvCVOracle : CVOracle :=
  { log2 := fun _ => 0
    sqrtv := fun _ => 0
    laplacian := fun _ _ _ _ _ => 0
    gblur5 := fun _ _ _ _ _ => 0
    rgb2hsv := cvRgb2hsvPix
    rgb2hsv_sat_le := by
      intro p
      show (cvRgb2hsvPix p).2.1 ≤ 255
      unfold cvRgb2hsvPix
      set r : ℚ := (p.1 : ℚ) with hr
      set g : ℚ := (p.2.1 : ℚ) with hg
      set b : ℚ := (p.2.2 : ℚ) with hb
      by_cases hv : max r (max g b) = 0
      · simp [hv]
      · have hr0 : (0 : ℚ) ≤ r := by positivity
        have hg0 : (0 : ℚ) ≤ g := by positivity
        have hb0 : (0 : ℚ) ≤ b := by positivity
        have hvpos : 0 < max r (max g b) :=
          lt_of_le_of_ne (le_trans hr0 (le_max_left _ _)) (Ne.symm hv)
        have hmn : 0 ≤ min r (min g b) := le_min hr0 (le_min hg0 hb0)
        have harg : 255 * (max r (max g b) - min r (min g b)) / max r (max g b) ≤ 255 := by
          rw [div_le_iff₀ hvpos]
          nlinarith
        have hround : roundQ (255 * (max r (max g b) - min r (min g b)) / max r (max g b)) ≤ 255 := by
          unfold roundQ
          have : (255 : ℚ) * (max r (max g b) - min r (min g b)) / max r (max g b) + 1 / 2 ≤
              255 + 1 / 2 := by linarith
          calc ⌊(255 : ℚ) * (max r (max g b) - min r (min g b)) / max r (max g b) + 1 / 2⌋ ≤
              ⌊(255 : ℚ) + 1 / 2⌋ := Int.floor_le_floor this
            _ = 255 := by norm_num [Int.floor_eq_iff]
        simp only [hv, if_false]
        exact Int.toNat_le_toNat hround }

/-- One-pixel black buffer (used by range/positivity witnesses). -/
def img1 : UImage := ⟨1, 1, fun _ _ => (0, 0, 0)⟩

/-- One-pixel buffer whose single pixel has OpenCV HSV value `(25,128,240)`. -/
def imgSkin25 : UImage := ⟨1, 1, fun _ _ => (240, 220, 120)⟩

/-- Neutral metrics record (all measurements zero, no metadata). -/
def mNeutral : ImageMetrics :=
  { exposure_level := 0
    contrast_level := 0
    shadow_clipping_percent := 0
    highlight_clipping_percent := 0
    saturation_level := 0
    sharpness_score := 0
    noise_level := 0
    skin_tone_detected := false
    skin_tone_hue_range := none
    is_backlit := false
    is_low_light := false
    exif_data := none }

/-- Backlit, well-exposed, clipping-free metrics (C3 inputs). -/
def mBacklit : ImageMetrics :=
  { mNeutral with is_backlit := true }

/-- Style preferences with `preserve_highlights = False`. -/
def prefsNoPreserve : StylePreferences :=
  { natural_appearance := true
    preserve_highlights := false
    stable_skin_tones := true
    avoid_filter_look := true }

/-- Style preferences with everything enabled (the model defaults). -/
def prefsDefault : StylePreferences :=
  { natural_appearance := true
    preserve_highlights := true
    stable_skin_tones := true
    avoid_filter_look := true }

/-- Trivial converter oracle: no detector, identity/constant black boxes. -/
def trivApplyOracle : ApplyOracle :=
  { hasDetector := false
    resizePix := fun g _ _ _ _ => g
    cascade := fun _ _ _ _ => []
    rgb2hsvA := fun p => p
    hsv2rgbA := fun p => p
    bilateral := fun u _ _ _ => u
    gauss5U := fun u => u }

/-- All-neutral adjustment parameters (exposure 0, contrast 1, shadow 0,
highlight 0, saturation 1, sharpness 0, noise 0, relight 0). -/
def neutralParams : OptimizationParams :=
  { exposure_adjustment := 0
    contrast_adjustment := 1
    shadow_lift := 0
    highlight_recovery := 0
    saturation_adjustment := 1
    sharpness_amount := 0
    noise_reduction := 0
    skin_tone_protection := false
    face_relight_strength := 0 }

/-- 10×10 counterexample buffer for the no-op claim: rows 0–7 at value 100
(a dark "face"), rows 8–9 at value 255 (bright background). -/
def imgNoop : UImage :=
  ⟨10, 10, fun y _ => if y ≤ 7 then (100, 100, 100) else (255, 255, 255)⟩

/-- Face region covering the dark block of `imgNoop`. -/
def regionNoop : FaceRegion := ⟨0, 0, 10, 8⟩

/-- The applier's output on `imgNoop` with neutral parameters and the
embedded region `regionNoop` (the auto-relight fires at strength 0.45). -/
noncomputable def outNoop : UImage :=
  toUint8Clip (relightFaces (toFloatImage imgNoop) [regionNoop] (9 / 20))

/-- Normalised elliptical distance of grid point `(y, x)` from the
relight-mask centre of `regionNoop`. -/
noncomputable def dNoop (y x : ℕ) : ℝ :=
  (((x : ℝ) - 5) / (19 / 2)) ^ 2 + (((y : ℝ) - 104 / 25) / (48 / 5)) ^ 2

/-- EXIF record with every field absent. -/
def exifEmpty : EXIFMetadata :=
  { iso := none
    exposure_time := none
    f_number := none
    exposure_compensation := none
    flash_fired := none
    scene_type := none
    brightness_value := none
    metering_mode := none }

/-! ## Helper lemmas -/

theorem clipQ_le_hi (x lo hi : ℚ) : clipQ x lo hi ≤ hi := min_le_left _ _

theorem lo_le_clipQ (x lo hi : ℚ) (h : lo ≤ hi) : lo ≤ clipQ x lo hi :=
  le_min h (le_max_left _ _)

theorem le_clipQ_of_le {x c : ℚ} (lo : ℚ) {hi : ℚ} (hc : c ≤ hi) (hx : c ≤ x) :
    c ≤ clipQ x lo hi :=
  le_min hc (le_trans hx (le_max_right _ _))

theorem clipQ_eq_self {x lo hi : ℚ} (h1 : lo ≤ x) (h2 : x ≤ hi) : clipQ x lo hi = x := by
  unfold clipQ
  rw [max_eq_right h1, min_eq_right h2]

theorem clipQ_mono {x y : ℚ} (lo hi : ℚ) (h : x ≤ y) : clipQ x lo hi ≤ clipQ y lo hi :=
  min_le_min le_rfl (max_le_max le_rfl h)

theorem calculateHighlightRecovery_bounds (prefs : StylePreferences) (m : ImageMetrics) :
    0 ≤ calculateHighlightRecovery prefs m ∧ calculateHighlightRecovery prefs m ≤ 1 := by
  unfold calculateHighlightRecovery
  by_cases hph : (!prefs.preserve_highlights) = true
  · rw [if_pos hph]
    split_ifs <;> norm_num
  · rw [if_neg hph]
    exact ⟨lo_le_clipQ _ _ _ (by norm_num), clipQ_le_hi _ _ _⟩

theorem calculateFaceRelightStrength_bounds (prefs : StylePreferences) (m : ImageMetrics) :
    0 ≤ calculateFaceRelightStrength prefs m ∧ calculateFaceRelightStrength prefs m ≤ 0.6 := by
  unfold calculateFaceRelightStrength
  by_cases hb : (!m.is_backlit) = true
  · rw [if_pos hb]
    norm_num
  · rw [if_neg hb]
    exact ⟨lo_le_clipQ _ _ _ (by norm_num), clipQ_le_hi _ _ _⟩

theorem generate_paramsInvariant (prefs : StylePreferences) (m : ImageMetrics) :
    ParamsInvariant (generate prefs m) := by
  obtain ⟨hf0, hf1⟩ := calculateFaceRelightStrength_bounds prefs m
  obtain ⟨hh0, hh1⟩ := calculateHighlightRecovery_bounds prefs m
  unfold ParamsInvariant generate
  dsimp only
  refine ⟨?_, ?_, ?_, ?_, ?_, ?_, hh0, hh1, ?_, ?_, ?_, ?_, ?_, ?_, ?_, ?_⟩
  · exact lo_le_clipQ _ _ _ (by norm_num)
  · exact clipQ_le_hi _ _ _
  · exact lo_le_clipQ _ _ _ (by norm_num)
  · exact clipQ_le_hi _ _ _
  · unfold calculateShadowLift
    exact lo_le_clipQ _ _ _ (by norm_num)
  · unfold calculateShadowLift
    exact clipQ_le_hi _ _ _
  · exact lo_le_clipQ _ _ _ (by norm_num)
  · exact clipQ_le_hi _ _ _
  · unfold calculateSharpness
    exact lo_le_clipQ _ _ _ (by norm_num)
  · unfold calculateSharpness
    exact clipQ_le_hi _ _ _
  · unfold calculateNoiseReduction
    exact lo_le_clipQ _ _ _ (by norm_num)
  · unfold calculateNoiseReduction
    exact clipQ_le_hi _ _ _
  · exact_mod_cast hf0
  · have h : ((calculateFaceRelightStrength prefs m : ℚ) : ℝ) ≤ ((0.6 : ℚ) : ℝ) := by
      exact_mod_cast hf1
    simpa using h

/-! ## Claim C3: highlight-recovery backlit floor -/

/-- C3 counterexample: with `preserve_highlights = False`, a backlit,
well-exposed, clipping-free metrics record yields highlight recovery 0
(strictly below the claimed unconditional 0.12 floor) — the floor is
applied only on the `preserve_highlights` branch. -/
theorem c3_counterexample :
    mBacklit.is_backlit = true ∧ mBacklit.exposure_level > -0.2 ∧
    (generate prefsNoPreserve mBacklit).highlight_recovery = 0 ∧
    (generate prefsNoPreserve mBacklit).highlight_recovery < 0.12 := by
  refine ⟨rfl, by norm_num [mBacklit, mNeutral], ?_, ?_⟩
  · show calculateHighlightRecovery prefsNoPreserve mBacklit = 0
    norm_num [calculateHighlightRecovery, prefsNoPreserve, mBacklit, mNeutral]
  · show calculateHighlightRecovery prefsNoPreserve mBacklit < 0.12
    norm_num [calculateHighlightRecovery, prefsNoPreserve, mBacklit, mNeutral]

/-- C3 (amended): when `preserve_highlights` is true, every backlit metrics
record with `exposure_level > -0.2` receives highlight recovery ≥ 0.12
from `OptimizationParamGenerator.generate`. -/
theorem c3_highlight_floor (prefs : StylePreferences) (m : ImageMetrics)
    (hp : prefs.preserve_highlights = true) (hb : m.is_backlit = true)
    (he : m.exposure_level > -0.2) :
    0.12 ≤ (generate prefs m).highlight_recovery := by
  show 0.12 ≤ calculateHighlightRecovery prefs m
  unfold calculateHighlightRecovery
  rw [hp]
  rw [if_neg (by norm_num)]
  split_ifs
  all_goals
    try
      (exfalso
       exact (by assumption : ¬(m.is_backlit = true ∧ m.exposure_level > -0.2))
         (And.intro hb he))
  all_goals exact le_clipQ_of_le 0 (by norm_num) (le_max_right _ _)

/-- C3 witness: the floor holds at a concrete backlit input with the
default preferences. -/
theorem c3_witness :
    prefsDefault.preserve_highlights = true ∧ mBacklit.is_backlit = true ∧
    mBacklit.exposure_level > -0.2 ∧
    0.12 ≤ (generate prefsDefault mBacklit).highlight_recovery := by
  refine ⟨rfl, rfl, by norm_num [mBacklit, mNeutral], ?_⟩
  exact c3_highlight_floor prefsDefault mBacklit rfl rfl (by norm_num [mBacklit, mNeutral])

/-! ## Claim C6: ISO monotonicity of noise reduction -/

theorem isoFactor_mono {i1 i2 : ℤ} (h : i1 ≤ i2) : isoFactor i1 ≤ isoFactor i2 := by
  have hc : (i1 : ℚ) ≤ (i2 : ℚ) := by exact_mod_cast h
  have e1 : ∀ i : ℤ, isoFactor i =
      (if (i : ℚ) < 400 then 0
       else if (i : ℚ) < 800 then ((i : ℚ) - 400) / 400 * 0.3
       else if (i : ℚ) < 1600 then 0.3 + ((i : ℚ) - 800) / 800 * 0.2
       else 0.5 + min (((i : ℚ) - 1600) / 1600 * 0.4) 0.4) := by
    intro i
    have c1 : i < 400 ↔ (i : ℚ) < 400 := by exact_mod_cast Iff.rfl
    have c2 : i < 800 ↔ (i : ℚ) < 800 := by exact_mod_cast Iff.rfl
    have c3 : i < 1600 ↔ (i : ℚ) < 1600 := by exact_mod_cast Iff.rfl
    unfold isoFactor
    simp only [c1, c2, c3]
  rw [e1 i1, e1 i2]
  split_ifs <;> (try simp only [min_def]) <;> (try split_ifs) <;> linarith

theorem calculateNoiseReduction_iso (m : ImageMetrics) (e : EXIFMetadata) (i : ℤ) :
    calculateNoiseReduction { m with exif_data := some { e with iso := some i } } =
      clipQ (if m.is_low_light then
               min ((0.6 * m.noise_level + 0.4 * isoFactor i) * 1.2) 1
             else 0.6 * m.noise_level + 0.4 * isoFactor i) 0 1 := by
  unfold calculateNoiseReduction
  rfl

/-- C6: for a fixed measured noise level (within its declared `[0,1]`
bound), fixed low-light flag and other metrics fields, the generated
noise reduction is monotone non-decreasing in the ISO value (hence within
the claimed 0.01 tolerance), and is strictly larger at ISO 3200 than at
ISO 100. -/
theorem c6_iso_monotonicity (m : ImageMetrics) (e : EXIFMetadata)
    (h0 : 0 ≤ m.noise_level) (h1 : m.noise_level ≤ 1) :
    (∀ i1 i2 : ℤ, i1 ≤ i2 →
      calculateNoiseReduction { m with exif_data := some { e with iso := some i1 } } - 0.01 ≤
        calculateNoiseReduction { m with exif_data := some { e with iso := some i2 } }) ∧
    calculateNoiseReduction { m with exif_data := some { e with iso := some 100 } } <
      calculateNoiseReduction { m with exif_data := some { e with iso := some 3200 } } := by
  constructor
  · intro i1 i2 h12
    rw [calculateNoiseReduction_iso, calculateNoiseReduction_iso]
    have hf := isoFactor_mono h12
    have hmono :
        (if m.is_low_light then
            min ((0.6 * m.noise_level + 0.4 * isoFactor i1) * 1.2) 1
          else 0.6 * m.noise_level + 0.4 * isoFactor i1) ≤
        (if m.is_low_light then
            min ((0.6 * m.noise_level + 0.4 * isoFactor i2) * 1.2) 1
          else 0.6 * m.noise_level + 0.4 * isoFactor i2) := by
      split_ifs
      · exact min_le_min (by linarith) le_rfl
      · linarith
    have hc := clipQ_mono (0 : ℚ) 1 hmono
    linarith
  · rw [calculateNoiseReduction_iso, calculateNoiseReduction_iso]
    have hf100 : isoFactor 100 = 0 := by norm_num [isoFactor]
    have hf3200 : isoFactor 3200 = 0.9 := by norm_num [isoFactor]
    rw [hf100, hf3200]
    by_cases hl : m.is_low_light = true
    · rw [if_pos hl, if_pos hl]
      have e1 : min ((0.6 * m.noise_level + 0.4 * (0 : ℚ)) * 1.2) 1 =
          (0.6 * m.noise_level + 0.4 * (0 : ℚ)) * 1.2 :=
        min_eq_left (by linarith)
      rw [e1]
      rw [clipQ_eq_self (by linarith) (by linarith)]
      have hv2 : (0 : ℚ) ≤ min ((0.6 * m.noise_level + 0.4 * (0.9 : ℚ)) * 1.2) 1 :=
        le_min (by linarith) (by norm_num)
      rw [clipQ_eq_self hv2 (min_le_right _ _)]
      exact lt_min (by linarith) (by linarith)
    · rw [if_neg hl, if_neg hl]
      rw [clipQ_eq_self (by linarith) (by linarith),
        clipQ_eq_self (by linarith) (by linarith)]
      linarith

/-- C6 witness: at the neutral metrics and empty EXIF record, the strict
ISO 100 → 3200 increase holds. -/
theorem c6_witness :
    (0 : ℚ) ≤ mNeutral.noise_level ∧ mNeutral.noise_level ≤ 1 ∧
    calculateNoiseReduction { mNeutral with exif_data := some { exifEmpty with iso := some 100 } } <
      calculateNoiseReduction { mNeutral with exif_data := some { exifEmpty with iso := some 3200 } } := by
  refine ⟨by norm_num [mNeutral], by norm_num [mNeutral], ?_⟩
  exact (c6_iso_monotonicity mNeutral exifEmpty (by norm_num [mNeutral])
    (by norm_num [mNeutral])).2

/-! ## Analyzer helper lemmas -/

theorem pixList_length (img : UImage) : (pixList img).length = img.h * img.w := by
  unfold pixList
  rw [List.length_flatMap]
  simp only [Function.comp_def, List.length_map, List.length_range]
  rw [List.map_const']
  rw [List.sum_replicate]
  simp [List.length_range, smul_eq_mul]

theorem grayList_length (img : UImage) : (grayList img).length = img.h * img.w := by
  unfold grayList
  rw [List.length_map, pixList_length]

theorem meanQ_nonneg {l : List ℚ} (h : ∀ x ∈ l, 0 ≤ x) : 0 ≤ meanQ l := by
  unfold meanQ
  exact div_nonneg (List.sum_nonneg h) (by positivity)

theorem meanQ_le {l : List ℚ} {c : ℚ} (hc : 0 ≤ c) (h : ∀ x ∈ l, x ≤ c) : meanQ l ≤ c := by
  unfold meanQ
  rcases List.eq_nil_or_concat l with rfl | _
  · simpa using hc
  · have hlen : 0 < (l.length : ℚ) := by
      have : l ≠ [] := by
        rintro rfl
        simp_all
      have h0 : 0 < l.length := List.length_pos.mpr this
      exact_mod_cast h0
    rw [div_le_iff₀ hlen]
    have := List.sum_le_card_nsmul l c h
    simpa [nsmul_eq_mul, mul_comm] using this

theorem percent_bounds {a b : ℕ} (hb : 0 < b) (hab : a ≤ b) :
    0 ≤ ((a : ℚ) / (b : ℚ)) * 100 ∧ ((a : ℚ) / (b : ℚ)) * 100 ≤ 100 := by
  have hbq : (0 : ℚ) < (b : ℚ) := by exact_mod_cast hb
  constructor
  · positivity
  · have h1 : (a : ℚ) / (b : ℚ) ≤ 1 := by
      rw [div_le_one hbq]
      exact_mod_cast hab
    linarith

theorem detectClipping_bounds (img : UImage) (hpos : 0 < img.h * img.w) :
    (0 ≤ (Analyzer.detectClipping img).1 ∧ (Analyzer.detectClipping img).1 ≤ 100) ∧
    (0 ≤ (Analyzer.detectClipping img).2 ∧ (Analyzer.detectClipping img).2 ≤ 100) := by
  have hlen : 0 < (grayList img).length := by rw [grayList_length]; exact hpos
  unfold Analyzer.detectClipping
  refine ⟨percent_bounds hlen ?_, percent_bounds hlen ?_⟩
  · exact List.length_filter_le _ _
  · exact List.length_filter_le _ _

theorem calculateSaturation_bounds (O : CVOracle) (img : UImage) :
    0 ≤ Analyzer.calculateSaturation O img ∧ Analyzer.calculateSaturation O img ≤ 2 := by
  unfold Analyzer.calculateSaturation
  have h0 : 0 ≤ meanQ ((pixList img).map fun p => ((O.rgb2hsv p).2.1 : ℚ)) := by
    apply meanQ_nonneg
    intro x hx
    obtain ⟨p, _, rfl⟩ := List.mem_map.mp hx
    positivity
  have h255 : meanQ ((pixList img).map fun p => ((O.rgb2hsv p).2.1 : ℚ)) ≤ 255 := by
    apply meanQ_le (by norm_num)
    intro x hx
    obtain ⟨p, _, rfl⟩ := List.mem_map.mp hx
    exact_mod_cast O.rgb2hsv_sat_le p
  constructor
  · positivity
  · rw [div_mul_eq_mul_div, div_le_iff₀ (by norm_num : (0:ℚ) < 255)]
    linarith

theorem natMin?_spec {l : List ℕ} {a : ℕ} (h : l.min? = some a) :
    a ∈ l ∧ ∀ b ∈ l, a ≤ b :=
  (List.min?_eq_some_iff (fun x => le_refl x) (fun x y => min_choice x y)
    (fun _ _ _ => le_min_iff)).mp h

theorem natMax?_spec {l : List ℕ} {a : ℕ} (h : l.max? = some a) :
    a ∈ l ∧ ∀ b ∈ l, b ≤ a :=
  (List.max?_eq_some_iff (fun x => le_refl x) (fun x y => max_choice x y)
    (fun _ _ _ => max_le_iff)).mp h

theorem skinMask_hue_le {p : ℕ × ℕ × ℕ} (h : Analyzer.skinMask p = true) : p.1 ≤ 24 := by
  unfold Analyzer.skinMask at h
  simp only [Bool.decide_and, Bool.and_eq_true, decide_eq_true_eq] at h
  have h24 : Analyzer.hueMaxCv = 24 := rfl
  rw [h24] at h
  exact h.1

theorem detectSkinTones_hue_range (O : CVOracle) (img : UImage) :
    ∀ lo hi, (Analyzer.detectSkinTones O img).2 = some (lo, hi) →
      0 ≤ lo ∧ lo ≤ hi ∧ hi ≤ 360 := by
  intro lo hi h
  unfold Analyzer.detectSkinTones at h
  set skinHues := ((((pixList img).map O.rgb2hsv).filter Analyzer.skinMask).map
    fun p => p.1) with hsk
  by_cases hpct : (5 : ℚ) <
      ((skinHues.length : ℚ)) / ((img.h * img.w : ℕ) : ℚ) * 100
  · rw [if_pos hpct] at h
    cases hmn : skinHues.min? with
    | none =>
      rw [hmn] at h
      simp at h
    | some mn =>
      cases hmx : skinHues.max? with
      | none =>
        rw [hmn, hmx] at h
        simp at h
      | some mx =>
        rw [hmn, hmx] at h
        simp only [Option.some.injEq, Prod.mk.injEq] at h
        obtain ⟨h1, h2⟩ := h
        obtain ⟨hmnmem, hmnle⟩ := natMin?_spec hmn
        obtain ⟨hmxmem, _⟩ := natMax?_spec hmx
        have hmnmx : mn ≤ mx := hmnle mx hmxmem
        have hmx24 : mx ≤ 24 := by
          obtain ⟨p, hp, rfl⟩ := List.mem_map.mp hmxmem
          exact skinMask_hue_le (List.mem_filter.mp hp).2
        subst h1
        subst h2
        refine ⟨by positivity, ?_, ?_⟩
        · have hc : (mn : ℚ) ≤ (mx : ℚ) := by exact_mod_cast hmnmx
          linarith
        · have hc : (mx : ℚ) ≤ 24 := by exact_mod_cast hmx24
          linarith
  · rw [if_neg hpct] at h
    simp at h

theorem detectSkinTones_detected_iff (O : CVOracle) (img : UImage) :
    (Analyzer.detectSkinTones O img).1 = true ↔
      5 < (((((pixList img).map O.rgb2hsv).filter Analyzer.skinMask).length : ℚ)) /
          ((img.h * img.w : ℕ) : ℚ) * 100 := by
  unfold Analyzer.detectSkinTones
  dsimp only
  set flt := (((pixList img).map O.rgb2hsv).filter Analyzer.skinMask) with hflt
  have hlen : (flt.map fun p => p.1).length = flt.length := List.length_map _ _
  rw [hlen]
  by_cases hpct : (5 : ℚ) < ((flt.length : ℚ)) / ((img.h * img.w : ℕ) : ℚ) * 100
  · rw [if_pos hpct]
    have hne : flt ≠ [] := by
      intro hnil
      rw [hnil] at hpct
      norm_num at hpct
    have hne2 : (flt.map fun p => p.1) ≠ [] := by
      simpa using hne
    cases hmn : (flt.map fun p => p.1).min? with
    | none =>
      rw [List.min?_eq_none_iff] at hmn
      exact absurd hmn hne2
    | some mn =>
      cases hmx : (flt.map fun p => p.1).max? with
      | none =>
        rw [List.max?_eq_none_iff] at hmx
        exact absurd hmx hne2
      | some mx =>
        simpa using hpct
  · rw [if_neg hpct]
    simpa using hpct

/-! ## Claim C4: skin-tone mask boundary -/

/-- C4 counterexample: every pixel of `imgSkin25` has OpenCV HSV value
`(25, 128, 240)`, which satisfies the spec's mask (hue ∈ [0,25], so 100% >
5% of pixels match and the claim asserts detection), yet the code's hue
bound `int(50*179/360) = 24` excludes hue 25 and the analyzer reports no
skin tones. -/
theorem c4_counterexample :
    cvRgb2hsvPix (240, 220, 120) = (25, 128, 240) ∧
    specSkinMask (25, 128, 240) = true ∧
    ((((pixList imgSkin25).map cvCVOracle.rgb2hsv).filter specSkinMask).length : ℚ) /
        ((imgSkin25.h * imgSkin25.w : ℕ) : ℚ) * 100 > 5 ∧
    (Analyzer.detectSkinTones cvCVOracle imgSkin25).1 = false := by
  have h1 : cvRgb2hsvPix (240, 220, 120) = (25, 128, 240) := by
    unfold cvRgb2hsvPix roundQ
    norm_num
    decide
  have hpix : pixList imgSkin25 = [(240, 220, 120)] := rfl
  have hhsv : (pixList imgSkin25).map cvCVOracle.rgb2hsv = [(25, 128, 240)] := by
    rw [hpix]
    show [cvRgb2hsvPix (240, 220, 120)] = [(25, 128, 240)]
    rw [h1]
  refine ⟨h1, by decide, ?_, ?_⟩
  · rw [hhsv]
    norm_num [specSkinMask, imgSkin25]
  · have hne : ¬((Analyzer.detectSkinTones cvCVOracle imgSkin25).1 = true) := by
      rw [detectSkinTones_detected_iff]
      rw [hhsv]
      have hfl : List.filter Analyzer.skinMask [((25 : ℕ), (128 : ℕ), (240 : ℕ))] = [] := by
        decide
      rw [hfl]
      norm_num
    simpa using hne

/-- C4 (amended): `skin_tone_detected` is true exactly when strictly more
than 5% of the pixels satisfy the code's mask, whose OpenCV hue bound is
`int(50*179/360) = 24` (saturation ∈ [20,170], value ≥ 50 as claimed); in
particular a pixel with OpenCV hue equal to 25 does not count toward the
mask. -/
theorem c4_skin_detection (O : CVOracle) (img : UImage) (_himg : ValidU img) :
    ((Analyzer.detectSkinTones O img).1 = true ↔
      5 < (((((pixList img).map O.rgb2hsv).filter Analyzer.skinMask).length : ℚ)) /
          ((img.h * img.w : ℕ) : ℚ) * 100) ∧
    Analyzer.hueMaxCv = 24 ∧
    (∀ s v : ℕ, Analyzer.skinMask (25, s, v) = false) := by
  refine ⟨detectSkinTones_detected_iff O img, rfl, ?_⟩
  intro s v
  simp [Analyzer.skinMask, Analyzer.hueMaxCv]

/-- C4 witness: the amended characterisation applied to the concrete
one-pixel buffer `imgSkin25`. -/
theorem c4_witness :
    ValidU imgSkin25 ∧
    (((Analyzer.detectSkinTones cvCVOracle imgSkin25).1 = true ↔
      5 < (((((pixList imgSkin25).map cvCVOracle.rgb2hsv).filter Analyzer.skinMask).length : ℚ)) /
          ((imgSkin25.h * imgSkin25.w : ℕ) : ℚ) * 100) ∧
    Analyzer.hueMaxCv = 24 ∧
    (∀ s v : ℕ, Analyzer.skinMask (25, s, v) = false)) := by
  have hv : ValidU imgSkin25 := by
    refine ⟨by norm_num [imgSkin25], by norm_num [imgSkin25], ?_⟩
    intro y _ x _
    refine ⟨?_, ?_, ?_⟩ <;> norm_num [imgSkin25]
  exact ⟨hv, c4_skin_detection cvCVOracle imgSkin25 hv⟩

/-! ## Claim C1: range invariants of analyze and generate -/

/-- C1: for every buffer satisfying the PixelBuffer invariant and every
metrics record satisfying the Metrics invariant, all numeric fields of
`ImageAnalyzer.analyze`'s result and of
`OptimizationParamGenerator.generate`'s result lie within their declared
bounds. -/
theorem c1_range_invariants (O : CVOracle) (img : UImage)
    (exif : Option EXIFMetadata) (himg : ValidU img) (m : ImageMetrics)
    (_hm : MetricsInvariant m) (prefs : StylePreferences) :
    MetricsInvariant (Analyzer.analyze O img exif) ∧
      ParamsInvariant (generate prefs m) := by
  refine ⟨?_, generate_paramsInvariant prefs m⟩
  have hpos : 0 < img.h * img.w := Nat.mul_pos himg.1 himg.2.1
  obtain ⟨⟨hs0, hs1⟩, ⟨hh0, hh1⟩⟩ := detectClipping_bounds img hpos
  obtain ⟨hsat0, hsat1⟩ := calculateSaturation_bounds O img
  unfold MetricsInvariant Analyzer.analyze
  dsimp only
  refine ⟨?_, ?_, ?_, ?_, hs0, hs1, hh0, hh1, hsat0, hsat1, ?_, ?_, ?_, ?_,
    detectSkinTones_hue_range O img⟩
  · unfold Analyzer.calculateExposure
    exact lo_le_clipQ _ _ _ (by norm_num)
  · unfold Analyzer.calculateExposure
    exact clipQ_le_hi _ _ _
  · unfold Analyzer.calculateContrast
    exact lo_le_clipQ _ _ _ (by norm_num)
  · unfold Analyzer.calculateContrast
    exact clipQ_le_hi _ _ _
  · unfold Analyzer.calculateSharpness
    exact lo_le_clipQ _ _ _ (by norm_num)
  · unfold Analyzer.calculateSharpness
    exact clipQ_le_hi _ _ _
  · unfold Analyzer.estimateNoise
    exact lo_le_clipQ _ _ _ (by norm_num)
  · unfold Analyzer.estimateNoise
    exact clipQ_le_hi _ _ _

/-- C1 witness: the invariants at the one-pixel black buffer, the neutral
metrics record, the trivial oracle and default preferences. -/
theorem c1_witness :
    ValidU img1 ∧ MetricsInvariant mNeutral ∧
    (MetricsInvariant (Analyzer.analyze trivCVOracle img1 none) ∧
      ParamsInvariant (generate prefsDefault mNeutral)) := by
  have hv : ValidU img1 := by
    refine ⟨by norm_num [img1], by norm_num [img1], ?_⟩
    intro y _ x _
    refine ⟨?_, ?_, ?_⟩ <;> norm_num [img1]
  have hmn : MetricsInvariant mNeutral := by
    unfold MetricsInvariant
    refine ⟨?_, ?_, ?_, ?_, ?_, ?_, ?_, ?_, ?_, ?_, ?_, ?_, ?_, ?_, ?_⟩ <;>
      first
        | (intro lo hi hcontra
           simp [mNeutral] at hcontra)
        | norm_num [mNeutral]
  exact ⟨hv, hmn, c1_range_invariants trivCVOracle img1 none hv mNeutral hmn prefsDefault⟩

/-! ## Claim C9: the middle histogram range has positive weight -/

theorem firstGe_reaches (c : ℕ → ℚ) (v : ℚ) (fuel : ℕ) :
    ∀ start j, start ≤ j → j < start + fuel → v ≤ c j →
      firstGe c v start fuel ≤ j ∧ v ≤ c (firstGe c v start fuel) := by
  induction fuel with
  | zero =>
    intro start j h1 h2 _
    omega
  | succ n ih =>
    intro start j h1 h2 h3
    unfold firstGe
    by_cases hc : v ≤ c start
    · rw [if_pos hc]
      exact ⟨h1, hc⟩
    · rw [if_neg hc]
      have hne : start ≠ j := fun h => hc (h ▸ h3)
      exact ih (start + 1) j (by omega) (by omega) h3

theorem firstGe_not_before (c : ℕ → ℚ) (v : ℚ) (fuel : ℕ) :
    ∀ start j, start ≤ j → j < firstGe c v start fuel → c j < v := by
  induction fuel with
  | zero =>
    intro start j h1 h2
    unfold firstGe at h2
    omega
  | succ n ih =>
    intro start j h1 h2
    unfold firstGe at h2
    by_cases hc : v ≤ c start
    · rw [if_pos hc] at h2
      omega
    · rw [if_neg hc] at h2
      rcases Nat.eq_or_lt_of_le h1 with rfl | hjlt
      · exact lt_of_not_le hc
      · exact ih (start + 1) j hjlt h2

theorem histF_nonneg (img : UImage) (v : ℕ) : 0 ≤ histF img v := by
  unfold histF
  positivity

theorem count_sum_eq_length {l : List ℕ} {n : ℕ} (h : ∀ x ∈ l, x < n) :
    ∑ v ∈ Finset.range n, l.count v = l.length := by
  induction l with
  | nil => simp
  | cons a t ih =>
    have ha : a ∈ Finset.range n := Finset.mem_range.mpr (h a (List.mem_cons_self a t))
    have ht : ∀ x ∈ t, x < n := fun x hx => h x (List.mem_cons_of_mem a hx)
    have hc : ∀ v, (a :: t).count v = t.count v + (if v = a then 1 else 0) := by
      intro v
      by_cases hv : v = a
      · subst hv
        rw [List.count_cons_self, if_pos rfl]
      · rw [List.count_cons_of_ne hv, if_neg hv]
        omega
    calc ∑ v ∈ Finset.range n, (a :: t).count v
        = ∑ v ∈ Finset.range n, (t.count v + if v = a then 1 else 0) := by
          exact Finset.sum_congr rfl fun v _ => hc v
      _ = (∑ v ∈ Finset.range n, t.count v) +
          ∑ v ∈ Finset.range n, (if v = a then 1 else 0) := Finset.sum_add_distrib
      _ = t.length + 1 := by
          rw [ih ht, Finset.sum_ite_eq' (Finset.range n) a fun _ => 1, if_pos ha]
      _ = (a :: t).length := by
          rw [List.length_cons]

theorem grayList_lt_256 (img : UImage) (himg : ValidU img) :
    ∀ x ∈ grayList img, x < 256 := by
  intro x hx
  unfold grayList at hx
  obtain ⟨p, hp, rfl⟩ := List.mem_map.mp hx
  unfold pixList at hp
  obtain ⟨y, hy, hp2⟩ := List.mem_flatMap.mp hp
  obtain ⟨z, hz, rfl⟩ := List.mem_map.mp hp2
  obtain ⟨h1, h2, h3⟩ :=
    himg.2.2 y (List.mem_range.mp hy) z (List.mem_range.mp hz)
  unfold grayPix
  have hnum : 4899 * (img.pix y z).1 + 9617 * (img.pix y z).2.1 +
      1868 * (img.pix y z).2.2 + 8192 < 256 * 16384 := by omega
  omega

theorem cumsumF_last (img : UImage) (himg : ValidU img) : cumsumF img 255 = 1 := by
  unfold cumsumF histF
  rw [← Finset.sum_div]
  have hcount : ∑ v ∈ Finset.range 256, (((grayList img).count v : ℕ) : ℚ) =
      (((grayList img).length : ℕ) : ℚ) := by
    rw [← Nat.cast_sum]
    exact_mod_cast congrArg (Nat.cast (R := ℚ))
      (count_sum_eq_length (grayList_lt_256 img himg))
  rw [hcount]
  have hlen : ((grayList img).length : ℚ) ≠ 0 := by
    have hpos : 0 < (grayList img).length := by
      rw [grayList_length]
      exact Nat.mul_pos himg.1 himg.2.1
    exact_mod_cast Nat.pos_iff_ne_zero.mp hpos
  exact div_self hlen

theorem cumsumF_succ (img : UImage) (k : ℕ) :
    cumsumF img (k + 1) = cumsumF img k + histF img (k + 1) := by
  unfold cumsumF
  exact Finset.sum_range_succ _ _

/-- C9: for every valid (non-empty) buffer the histogram weights between
the 25th- and 75th-percentile indices sum to a strictly positive value, so
the weighted-average branch of `_calculate_exposure` is taken and the
whole-image-mean fallback is unreachable. -/
theorem c9_middle_weights_pos (img : UImage) (himg : ValidU img) :
    0 < ∑ i ∈ Finset.Icc (searchSorted img 0.25) (searchSorted img 0.75),
      histF img i := by
  have h255 : cumsumF img 255 = 1 := cumsumF_last img himg
  have hLf : searchSorted img 0.25 = firstGe (cumsumF img) 0.25 0 256 := rfl
  have hUf : searchSorted img 0.75 = firstGe (cumsumF img) 0.75 0 256 := rfl
  rw [hLf, hUf]
  have hl := firstGe_reaches (cumsumF img) 0.25 256 0 255 (by omega) (by omega)
    (by rw [h255]; norm_num)
  have hu := firstGe_reaches (cumsumF img) 0.75 256 0 255 (by omega) (by omega)
    (by rw [h255]; norm_num)
  have hlq : 0.25 ≤ cumsumF img (firstGe (cumsumF img) 0.25 0 256) := hl.2
  have huq : 0.75 ≤ cumsumF img (firstGe (cumsumF img) 0.75 0 256) := hu.2
  have hlu : firstGe (cumsumF img) 0.25 0 256 ≤ firstGe (cumsumF img) 0.75 0 256 := by
    by_contra hcon
    have hlt : firstGe (cumsumF img) 0.75 0 256 < firstGe (cumsumF img) 0.25 0 256 := by
      omega
    have := firstGe_not_before (cumsumF img) 0.25 256 0
      (firstGe (cumsumF img) 0.75 0 256) (Nat.zero_le _) hlt
    linarith
  have hpos : 0 < histF img (firstGe (cumsumF img) 0.25 0 256) := by
    rcases Nat.eq_zero_or_pos (firstGe (cumsumF img) 0.25 0 256) with h0 | hgt
    · have hc0 : cumsumF img 0 = histF img 0 := by
        unfold cumsumF
        simp
      rw [h0] at hlq ⊢
      rw [hc0] at hlq
      linarith
    · obtain ⟨k, hk⟩ := Nat.exists_eq_add_of_lt hgt
      have hkdef : firstGe (cumsumF img) 0.25 0 256 = k + 1 := by omega
      have hprev : cumsumF img k < 0.25 :=
        firstGe_not_before (cumsumF img) 0.25 256 0 k (Nat.zero_le _) (by omega)
      have hsucc := cumsumF_succ img k
      rw [hkdef] at hlq ⊢
      linarith
  have hmem : firstGe (cumsumF img) 0.25 0 256 ∈
      Finset.Icc (firstGe (cumsumF img) 0.25 0 256)
        (firstGe (cumsumF img) 0.75 0 256) :=
    Finset.mem_Icc.mpr ⟨le_rfl, hlu⟩
  calc (0 : ℚ) < histF img (firstGe (cumsumF img) 0.25 0 256) := hpos
    _ ≤ ∑ i ∈ Finset.Icc (firstGe (cumsumF img) 0.25 0 256)
          (firstGe (cumsumF img) 0.75 0 256), histF img i :=
      Finset.single_le_sum (fun i _ => histF_nonneg img i) hmem

/-- C9 witness: positivity at the one-pixel black buffer. -/
theorem c9_witness :
    ValidU img1 ∧
    0 < ∑ i ∈ Finset.Icc (searchSorted img1 0.25) (searchSorted img1 0.75),
      histF img1 i := by
  have hv : ValidU img1 := by
    refine ⟨by norm_num [img1], by norm_num [img1], ?_⟩
    intro y _ x _
    refine ⟨?_, ?_, ?_⟩ <;> norm_num [img1]
  exact ⟨hv, c9_middle_weights_pos img1 hv⟩

/-! ## Claim C7: frame condition of the applier on the parameter record -/

/-- C7: for every call to `_apply_optimizations`, the only field of the
caller-supplied `OptimizationParams` that may differ afterwards is
`face_relight_strength`; the other eight fields are unchanged. -/
theorem c7_params_frame (O : ApplyOracle) (img : UImage)
    (params : OptimizationParams) (embedded : List FaceRegion) :
    (applyOptimizations O img params embedded).2.exposure_adjustment =
        params.exposure_adjustment ∧
    (applyOptimizations O img params embedded).2.contrast_adjustment =
        params.contrast_adjustment ∧
    (applyOptimizations O img params embedded).2.shadow_lift = params.shadow_lift ∧
    (applyOptimizations O img params embedded).2.highlight_recovery =
        params.highlight_recovery ∧
    (applyOptimizations O img params embedded).2.saturation_adjustment =
        params.saturation_adjustment ∧
    (applyOptimizations O img params embedded).2.sharpness_amount =
        params.sharpness_amount ∧
    (applyOptimizations O img params embedded).2.noise_reduction =
        params.noise_reduction ∧
    (applyOptimizations O img params embedded).2.skin_tone_protection =
        params.skin_tone_protection :=
  ⟨rfl, rfl, rfl, rfl, rfl, rfl, rfl, rfl⟩

/-! ## Claim C2: embedded face regions take priority over the detector -/

/-- C2: whenever the embedded extraction yields at least one region, the
detector branch yields `[]`, the relighting stage consumes exactly the
embedded regions, and the applier's output does not depend on the
detector-related oracle components; when the embedded extraction is
empty, the consumed regions are exactly the detector results. -/
theorem c2_embedded_priority (O : ApplyOracle) (img : UImage)
    (params : OptimizationParams) (embedded : List FaceRegion)
    (hne : embedded ≠ []) :
    detectorFaceRegions O img embedded = [] ∧
    consumedFaceRegions embedded (detectorFaceRegions O img embedded) = embedded ∧
    (∀ (hd : Bool) (rp : (ℕ → ℕ → ℕ) → ℕ → ℕ → ℕ → ℕ → (ℕ → ℕ → ℕ))
        (cc : (ℕ → ℕ → ℕ) → ℕ → ℕ → ℕ → List FaceRegion),
      applyOptimizations
          { O with hasDetector := hd, resizePix := rp, cascade := cc }
          img params embedded =
        applyOptimizations O img params embedded) ∧
    (∀ img2 : UImage,
      consumedFaceRegions ([] : List FaceRegion) (detectorFaceRegions O img2 []) =
        detectFaces O img2) := by
  have hemb : embedded.isEmpty = false := by
    cases embedded with
    | nil => exact absurd rfl hne
    | cons a t => rfl
  refine ⟨?_, ?_, ?_, ?_⟩
  · unfold detectorFaceRegions
    rw [hemb]
    simp
  · unfold consumedFaceRegions
    rw [hemb]
    simp
  · intro hd rp cc
    unfold applyOptimizations
    simp only [detectorFaceRegions, hemb, Bool.false_eq_true, if_false]
    rfl
  · intro img2
    unfold consumedFaceRegions detectorFaceRegions
    simp

/-- C2 witness: at a concrete singleton embedded-region list. -/
theorem c2_witness :
    detectorFaceRegions trivApplyOracle img1 [⟨0, 0, 1, 1⟩] = [] ∧
    consumedFaceRegions [⟨0, 0, 1, 1⟩]
        (detectorFaceRegions trivApplyOracle img1 [⟨0, 0, 1, 1⟩]) = [⟨0, 0, 1, 1⟩] := by
  have h := c2_embedded_priority trivApplyOracle img1 neutralParams [⟨0, 0, 1, 1⟩]
    (List.cons_ne_nil _ _)
  exact ⟨h.1, h.2.1⟩

/-! ## Claim C8: fallback-detector geometry -/

theorem floor_mul_004 (m : ℕ) : Int.toNat ⌊(m : ℚ) * 0.04⌋ = m / 25 := by
  have h1 : (m : ℚ) * 0.04 = (m : ℚ) / 25 := by ring
  have hdm := Nat.div_add_mod m 25
  have hr : m % 25 < 25 := Nat.mod_lt _ (by norm_num)
  have hm : (m : ℚ) = 25 * ((m / 25 : ℕ) : ℚ) + ((m % 25 : ℕ) : ℚ) := by
    exact_mod_cast hdm.symm
  have h0 : (0 : ℚ) ≤ ((m % 25 : ℕ) : ℚ) := by positivity
  have h25 : ((m % 25 : ℕ) : ℚ) < 25 := by exact_mod_cast hr
  have hfl : ⌊(m : ℚ) / 25⌋ = ((m / 25 : ℕ) : ℤ) := by
    rw [Int.floor_eq_iff]
    rw [Int.cast_natCast]
    constructor
    · rw [le_div_iff₀ (by norm_num : (0 : ℚ) < 25)]
      linarith
    · rw [div_lt_iff₀ (by norm_num : (0 : ℚ) < 25)]
      linarith
  rw [h1, hfl]
  exact Int.toNat_natCast _

/-- C8 counterexample: for a 100×100 input there is no downscaling, the
detection image's shorter side is 100 and 4% of it is 4, yet the code
passes `max(24, 4) = 24` to the detector — not "4% of the shorter side". -/
theorem c8_counterexample :
    detectDims 100 100 = (100, 100) ∧
    Int.toNat ⌊((min (detectDims 100 100).1 (detectDims 100 100).2 : ℕ) : ℚ) * 0.04⌋ = 4 ∧
    minSizeDetect 100 100 = 24 ∧
    minSizeDetect 100 100 ≠ 4 := by
  have hd : detectDims 100 100 = (100, 100) := by
    unfold detectDims detectScale
    norm_num
  have hf : Int.toNat ⌊((min (detectDims 100 100).1 (detectDims 100 100).2 : ℕ) : ℚ) * 0.04⌋ = 4 := by
    rw [floor_mul_004, hd]
    norm_num
  have hm : minSizeDetect 100 100 = 24 := by
    unfold minSizeDetect
    rw [floor_mul_004, hd]
    norm_num
  exact ⟨hd, hf, hm, by rw [hm]; norm_num⟩

/-- C8 (amended): the minimum face size passed to the detector equals
`max(24, ⌊4% of the shorter detection-image side⌋)`, and the detection
image is downscaled (scale > 1) exactly when the longer input side
exceeds 1280 pixels; when it is, each side becomes
`max(1, ⌊side·1280/longer⌋)`. -/
theorem c8_detection_geometry (h w : ℕ) :
    minSizeDetect h w = max 24 (min (detectDims h w).1 (detectDims h w).2 / 25) ∧
    (1 < detectScale h w ↔ 1280 < max h w) ∧
    (¬1280 < max h w → detectDims h w = (h, w)) ∧
    (1280 < max h w →
      (detectDims h w).1 = max 1 (Int.toNat ⌊(h : ℚ) * 1280 / ((max h w : ℕ) : ℚ)⌋) ∧
      (detectDims h w).2 = max 1 (Int.toNat ⌊(w : ℚ) * 1280 / ((max h w : ℕ) : ℚ)⌋)) := by
  have hscale : 1 < detectScale h w ↔ 1280 < max h w := by
    unfold detectScale
    by_cases hc : 1280 < max h w
    · rw [if_pos hc]
      have hgt : (1280 : ℚ) < ((max h w : ℕ) : ℚ) := by exact_mod_cast hc
      constructor
      · intro _
        exact hc
      · intro _
        rw [lt_div_iff₀ (by norm_num : (0 : ℚ) < 1280)]
        linarith
    · rw [if_neg hc]
      simp [hc]
  refine ⟨?_, hscale, ?_, ?_⟩
  · unfold minSizeDetect
    rw [floor_mul_004]
  · intro hc
    unfold detectDims
    rw [if_neg]
    rw [hscale]
    exact hc
  · intro hc
    have hs : 1 < detectScale h w := hscale.mpr hc
    have hq : detectScale h w = ((max h w : ℕ) : ℚ) / 1280 := by
      unfold detectScale
      rw [if_pos hc]
    have hmaxpos : (0 : ℚ) < ((max h w : ℕ) : ℚ) := by
      have : (0 : ℕ) < max h w := by omega
      exact_mod_cast this
    constructor
    · unfold detectDims
      rw [if_pos hs]
      have : (h : ℚ) / detectScale h w = (h : ℚ) * 1280 / ((max h w : ℕ) : ℚ) := by
        rw [hq]
        field_simp
      rw [this]
    · unfold detectDims
      rw [if_pos hs]
      have : (w : ℚ) / detectScale h w = (w : ℚ) * 1280 / ((max h w : ℕ) : ℚ) := by
        rw [hq]
        field_simp
      rw [this]

/-- C8 witness: the amended geometry at a 2000×1000 input (downscaled to
1280×640; minimum size `max(24, 640/25) = 25`). -/
theorem c8_witness :
    minSizeDetect 2000 1000 =
      max 24 (min (detectDims 2000 1000).1 (detectDims 2000 1000).2 / 25) ∧
    (detectDims 2000 1000).1 =
      max 1 (Int.toNat ⌊(2000 : ℚ) * 1280 / ((max 2000 1000 : ℕ) : ℚ)⌋) ∧
    (detectDims 2000 1000).2 =
      max 1 (Int.toNat ⌊(1000 : ℚ) * 1280 / ((max 2000 1000 : ℕ) : ℚ)⌋) := by
  have h := c8_detection_geometry 2000 1000
  have hd := h.2.2.2 (by norm_num)
  exact ⟨h.1, hd.1, hd.2⟩

/-! ## Claim C10: convert never propagates exceptions -/

/-- C10: `ImageConverter.convert` always returns a `ConversionResult`;
when the decode/optimize/encode pipeline fails with message `e` the
result is FAILED with no output path and message
`"Conversion failed: " ++ e`; when the pipeline succeeds the result is
SUCCESS with the requested output path. In every case the status is
SUCCESS or a fully populated FAILED record. -/
theorem c10_convert_total {α β : Type} (inputPath outputPath : String)
    (decodeStep : Except String α) (optimizeStep : α → Except String β)
    (encodeStep : β → Except String Unit) :
    (∀ e, (do
        let d ← decodeStep
        let o ← optimizeStep d
        encodeStep o) = Except.error e →
      convert inputPath outputPath decodeStep optimizeStep encodeStep =
        { input_path := inputPath
          output_path := none
          status := ConversionStatus.failed
          error_message := some (String.append "Conversion failed: " e) }) ∧
    ((do
        let d ← decodeStep
        let o ← optimizeStep d
        encodeStep o) = Except.ok () →
      convert inputPath outputPath decodeStep optimizeStep encodeStep =
        { input_path := inputPath
          output_path := some outputPath
          status := ConversionStatus.success
          error_message := none }) ∧
    ((convert inputPath outputPath decodeStep optimizeStep encodeStep).status =
        ConversionStatus.success ∨
      ((convert inputPath outputPath decodeStep optimizeStep encodeStep).status =
          ConversionStatus.failed ∧
        (convert inputPath outputPath decodeStep optimizeStep encodeStep).output_path = none ∧
        ∃ e, (convert inputPath outputPath decodeStep optimizeStep encodeStep).error_message =
          some (String.append "Conversion failed: " e))) := by
  refine ⟨?_, ?_, ?_⟩
  · intro e he
    simp only [convert, he]
  · intro hok
    simp only [convert, hok]
  · rcases hp : (do
        let d ← decodeStep
        let o ← optimizeStep d
        encodeStep o) with e | u
    · right
      simp only [convert, hp]
      exact ⟨trivial, trivial, e, rfl⟩
    · left
      simp only [convert, hp]

/-- C10 witness: a failing decode step yields the FAILED record with the
prefixed message and no output path. -/
theorem c10_witness :
    convert "in.heic" "out.jpg" (Except.error "boom" : Except String Unit)
        (fun _ => Except.ok ()) (fun _ => Except.ok ()) =
      { input_path := "in.heic"
        output_path := none
        status := ConversionStatus.failed
        error_message := some (String.append "Conversion failed: " "boom") } :=
  (c10_convert_total "in.heic" "out.jpg" (Except.error "boom" : Except String Unit)
    (fun _ => Except.ok ()) (fun _ => Except.ok ())).1 "boom" rfl

/-! ## Claim C5: the neutral-parameter no-op property -/

theorem clipR_eq_self {x lo hi : ℝ} (h1 : lo ≤ x) (h2 : x ≤ hi) : clipR x lo hi = x := by
  unfold clipR
  rw [max_eq_right h1, min_eq_right h2]

theorem toUint8Clip_toFloat (img : UImage) (himg : ValidU img) :
    ∀ y < img.h, ∀ x < img.w,
      (toUint8Clip (toFloatImage img)).pix y x = img.pix y x := by
  intro y hy x hx
  obtain ⟨h1, h2, h3⟩ := himg.2.2 y hy x hx
  unfold toUint8Clip toFloatImage
  dsimp only
  have key : ∀ v : ℕ, v ≤ 255 → (⌊clipR ((v : ℝ) / 255) 0 1 * 255⌋).toNat = v := by
    intro v hv
    have hv' : ((v : ℕ) : ℝ) ≤ 255 := by exact_mod_cast hv
    have hcl : clipR ((v : ℝ) / 255) 0 1 = (v : ℝ) / 255 := by
      apply clipR_eq_self
      · positivity
      · rw [div_le_one (by norm_num : (0 : ℝ) < 255)]
        exact hv'
    rw [hcl, div_mul_cancel₀ _ (by norm_num : (255 : ℝ) ≠ 0), Int.floor_natCast,
      Int.toNat_natCast]
  rw [key _ h1, key _ h2, key _ h3]

theorem applyOptimizations_neutral (O : ApplyOracle) (img : UImage)
    (hdet : detectFaces O img = []) :
    (applyOptimizations O img neutralParams []).1 = toUint8Clip (toFloatImage img) := by
  unfold applyOptimizations
  norm_num [detectorFaceRegions, consumedFaceRegions, hdet, neutralParams,
    calculateAutoHighlightRecovery]

/-- C5 (amended): applying the all-neutral `AdjustmentParameters` with no
face regions (neither embedded nor detected) returns the buffer unchanged
(average per-pixel change 0 ≤ 5/255). With face regions supplied, the
auto face-relight trigger can fire and the bound fails
(see the counterexample). -/
theorem c5_noop_no_faces (O : ApplyOracle) (img : UImage) (himg : ValidU img)
    (hdet : detectFaces O img = []) :
    avgAbsChange img (applyOptimizations O img neutralParams []).1 ≤ 5 / 255 := by
  rw [applyOptimizations_neutral O img hdet]
  unfold avgAbsChange
  have hz : ∀ p ∈ Finset.range img.h ×ˢ Finset.range img.w,
      (|((img.pix p.1 p.2).1 : ℝ) - (((toUint8Clip (toFloatImage img)).pix p.1 p.2).1 : ℝ)| +
       |((img.pix p.1 p.2).2.1 : ℝ) - (((toUint8Clip (toFloatImage img)).pix p.1 p.2).2.1 : ℝ)| +
       |((img.pix p.1 p.2).2.2 : ℝ) - (((toUint8Clip (toFloatImage img)).pix p.1 p.2).2.2 : ℝ)|) / 3
        = 0 := by
    intro p hp
    obtain ⟨hp1, hp2⟩ := Finset.mem_product.mp hp
    rw [toUint8Clip_toFloat img himg p.1 (Finset.mem_range.mp hp1) p.2
      (Finset.mem_range.mp hp2)]
    simp
  rw [Finset.sum_congr rfl hz]
  simp
  positivity

/-- C5 amended-claim witness: the no-op bound at the one-pixel black
buffer with the trivial oracle (no detector). -/
theorem c5_witness :
    ValidU img1 ∧ detectFaces trivApplyOracle img1 = [] ∧
    avgAbsChange img1 (applyOptimizations trivApplyOracle img1 neutralParams []).1 ≤ 5 / 255 := by
  have hv : ValidU img1 := by
    refine ⟨by norm_num [img1], by norm_num [img1], ?_⟩
    intro y _ x _
    refine ⟨?_, ?_, ?_⟩ <;> norm_num [img1]
  have hdet : detectFaces trivApplyOracle img1 = [] := by
    unfold detectFaces trivApplyOracle
    simp
  exact ⟨hv, hdet, c5_noop_no_faces trivApplyOracle img1 hv hdet⟩

theorem imgNoop_lum (y x : ℕ) :
    lumR ((toFloatImage imgNoop).pix y x) = if y ≤ 7 then (20 / 51 : ℝ) else 1 := by
  unfold imgNoop toFloatImage lumR
  dsimp only
  by_cases hy : y ≤ 7
  · rw [if_pos hy, if_pos hy]
    norm_num
  · rw [if_neg hy, if_neg hy]
    norm_num

theorem flattenLum_imgNoop :
    flattenLum (toFloatImage imgNoop) =
      List.replicate 80 ((20 : ℝ) / 51) ++ List.replicate 20 1 := by
  unfold flattenLum
  have hrow : ∀ y : ℕ,
      (List.range 10).map (fun x => lumR ((toFloatImage imgNoop).pix y x)) =
        List.replicate 10 (if y ≤ 7 then (20 / 51 : ℝ) else 1) := by
    intro y
    have hcg : (List.range 10).map (fun x => lumR ((toFloatImage imgNoop).pix y x)) =
        (List.range 10).map (fun _ => if y ≤ 7 then (20 / 51 : ℝ) else 1) :=
      List.map_congr_left fun x _ => imgNoop_lum y x
    rw [hcg, List.map_const']
    simp
  show (List.range (toFloatImage imgNoop).h).flatMap
      (fun y => (List.range (toFloatImage imgNoop).w).map
        fun x => lumR ((toFloatImage imgNoop).pix y x)) = _
  have hh : (toFloatImage imgNoop).h = 10 := rfl
  have hw : (toFloatImage imgNoop).w = 10 := rfl
  rw [hh, hw]
  simp only [hrow]
  have hr10 : List.range 10 = [0, 1, 2, 3, 4, 5, 6, 7, 8, 9] := rfl
  rw [hr10]
  simp only [List.flatMap_cons, List.flatMap_nil]
  norm_num
  rw [show (80 : ℕ) = 10 + (10 + (10 + (10 + (10 + (10 + (10 + 10)))))) from rfl,
    show (20 : ℕ) = 10 + 10 from rfl]
  simp only [List.replicate_add, List.append_assoc, List.append_nil]

theorem sortedNoop :
    List.Sorted (fun a b => a ≤ b)
      (List.replicate 80 ((20 : ℝ) / 51) ++ List.replicate 20 1) := by
  unfold List.Sorted
  rw [List.pairwise_append]
  refine ⟨?_, ?_, ?_⟩
  · rw [List.pairwise_replicate]
    right
    norm_num
  · rw [List.pairwise_replicate]
    right
    norm_num
  · intro a ha b hb
    rw [List.eq_of_mem_replicate ha, List.eq_of_mem_replicate hb]
    norm_num

theorem quantile_imgNoop : quantileR (flattenLum (toFloatImage imgNoop)) 0.90 = 1 := by
  unfold quantileR
  rw [flattenLum_imgNoop]
  rw [List.mergeSort_eq_self sortedNoop]
  have hlen : (List.replicate 80 ((20 : ℝ) / 51) ++ List.replicate 20 1).length = 100 := by
    simp
  rw [hlen]
  dsimp only
  have hfl : ⌊(0.90 : ℝ) * ((100 - 1 : ℕ) : ℝ)⌋ = 89 := by
    norm_num [Int.floor_eq_iff]
  rw [hfl]
  have hg89 : (List.replicate 80 ((20 : ℝ) / 51) ++ List.replicate 20 1).getD
      (Int.toNat 89) 0 = 1 := by
    rw [List.getD_eq_getElem?_getD]
    rw [List.getElem?_append_right (by simp)]
    simp
  have hg90 : (List.replicate 80 ((20 : ℝ) / 51) ++ List.replicate 20 1).getD
      (min (Int.toNat 89 + 1) (100 - 1)) 0 = 1 := by
    rw [List.getD_eq_getElem?_getD]
    rw [List.getElem?_append_right (by simp)]
    simp
  rw [hg89, hg90]
  norm_num

theorem regionLumMean_imgNoop :
    regionLumMean (toFloatImage imgNoop) regionNoop = 20 / 51 := by
  unfold regionLumMean regionNoop
  dsimp only
  have h1 : min (0 : ℕ) (toFloatImage imgNoop).h = 0 := rfl
  have h2 : min (0 + 8 : ℕ) (toFloatImage imgNoop).h = 8 := rfl
  have h3 : min (0 : ℕ) (toFloatImage imgNoop).w = 0 := rfl
  have h4 : min (0 + 10 : ℕ) (toFloatImage imgNoop).w = 10 := rfl
  rw [h1, h2, h3, h4]
  have hsum : ∀ y ∈ Finset.Ico (0 : ℕ) 8,
      ∑ x ∈ Finset.Ico (0 : ℕ) 10, lumR ((toFloatImage imgNoop).pix y x) =
        10 * (20 / 51 : ℝ) := by
    intro y hy
    have hy7 : y ≤ 7 := by
      have := (Finset.mem_Ico.mp hy).2
      omega
    rw [Finset.sum_congr rfl fun x _ => by rw [imgNoop_lum, if_pos hy7]]
    simp [Finset.sum_const, Nat.card_Ico]
  rw [Finset.sum_congr rfl hsum]
  simp [Finset.sum_const, Nat.card_Ico]
  norm_num

theorem estimate_imgNoop :
    estimateAutoFaceRelightStrength (toFloatImage imgNoop) [regionNoop] = 9 / 20 := by
  unfold estimateAutoFaceRelightStrength
  rw [if_neg (by simp)]
  dsimp only
  rw [quantile_imgNoop]
  rw [flattenLum_imgNoop]
  have hflt : List.filter (fun r => decide (0 < r.w ∧ 0 < r.h)) [regionNoop] =
      [regionNoop] := by
    simp [regionNoop]
  rw [hflt]
  simp only [List.map_cons, List.map_nil, regionLumMean_imgNoop]
  rw [if_neg (by simp)]
  simp only [List.sum_append, List.sum_replicate, List.length_append,
    List.length_replicate, List.sum_cons, List.sum_nil, List.length_cons,
    List.length_nil, smul_eq_mul]
  norm_num [clipR]

theorem applyOpt_imgNoop :
    (applyOptimizations trivApplyOracle imgNoop neutralParams [regionNoop]).1 = outNoop := by
  unfold applyOptimizations outNoop
  norm_num [detectorFaceRegions, consumedFaceRegions, neutralParams,
    calculateAutoHighlightRecovery, estimate_imgNoop, clipR]

theorem regionMaskContrib_noop (y x : ℕ) (hy : y < 10) (hx : x < 10) :
    regionMaskContrib 10 10 regionNoop y x =
      clipR (1 - ((((x : ℝ) - 5) / (19 / 2)) ^ 2 + (((y : ℝ) - 104 / 25) / (48 / 5)) ^ 2))
        0 1 ^ (1.5 : ℝ) := by
  unfold regionMaskContrib regionNoop
  dsimp only
  rw [if_neg (by norm_num)]
  have hrx : max (4 : ℝ) (((10 : ℕ) : ℝ) * 0.95) = 19 / 2 := by
    rw [max_eq_right (by norm_num)]
    norm_num
  have hry : max (4 : ℝ) (((8 : ℕ) : ℝ) * 1.20) = 48 / 5 := by
    rw [max_eq_right (by norm_num)]
    norm_num
  have hcx : ((0 : ℕ) : ℝ) + ((10 : ℕ) : ℝ) * 0.5 = 5 := by norm_num
  have hcy : ((0 : ℕ) : ℝ) + ((8 : ℕ) : ℝ) * 0.52 = 104 / 25 := by norm_num
  rw [hrx, hry, hcx, hcy]
  have hleft : max (0 : ℤ) ⌊(5 : ℝ) - 19 / 2 * 1.6⌋ = 0 := by
    rw [show ⌊(5 : ℝ) - 19 / 2 * 1.6⌋ = -11 by norm_num [Int.floor_eq_iff]]
    rfl
  have hright : min ((10 : ℕ) : ℤ) ⌊(5 : ℝ) + 19 / 2 * 1.6⌋ = 10 := by
    rw [show ⌊(5 : ℝ) + 19 / 2 * 1.6⌋ = 20 by norm_num [Int.floor_eq_iff]]
    rfl
  have htop : max (0 : ℤ) ⌊(104 / 25 : ℝ) - 48 / 5 * 1.4⌋ = 0 := by
    rw [show ⌊(104 / 25 : ℝ) - 48 / 5 * 1.4⌋ = -10 by norm_num [Int.floor_eq_iff]]
    rfl
  have hbottom : min ((10 : ℕ) : ℤ) ⌊(104 / 25 : ℝ) + 48 / 5 * 1.4⌋ = 10 := by
    rw [show ⌊(104 / 25 : ℝ) + 48 / 5 * 1.4⌋ = 17 by norm_num [Int.floor_eq_iff]]
    rfl
  rw [hleft, hright, htop, hbottom]
  rw [if_neg (by norm_num)]
  rw [if_pos]
  refine ⟨by positivity, ?_, by positivity, ?_⟩
  · exact_mod_cast hx
  · exact_mod_cast hy

theorem clipR_nonneg (x hi : ℝ) (hhi : 0 ≤ hi) : 0 ≤ clipR x 0 hi := by
  unfold clipR
  exact le_min hhi (le_max_left 0 x)

theorem relightMask_noop (y x : ℕ) (hy : y < 10) (hx : x < 10) :
    relightMask 10 10 [regionNoop] y x = clipR (1 - dNoop y x) 0 1 ^ (1.5 : ℝ) := by
  unfold relightMask
  simp only [List.foldl_cons, List.foldl_nil]
  rw [max_eq_right]
  · rw [regionMaskContrib_noop y x hy hx]
    rfl
  · rw [regionMaskContrib_noop y x hy hx]
    exact Real.rpow_nonneg (clipR_nonneg _ _ (by norm_num)) _

theorem relightMaskMax_noop_pos :
    ¬ relightMaskMax (toFloatImage imgNoop) [regionNoop] ≤ 0 := by
  rw [not_le]
  have hmem : ((4, 4) : ℕ × ℕ) ∈ Finset.range 10 ×ˢ Finset.range 10 := by decide
  have h44 : relightMask (toFloatImage imgNoop).w (toFloatImage imgNoop).h [regionNoop] 4 4 ≤
      relightMaskMax (toFloatImage imgNoop) [regionNoop] := by
    unfold relightMaskMax
    exact (Finset.le_fold_max _).mpr (Or.inr ⟨(4, 4), hmem, le_refl _⟩)
  refine lt_of_lt_of_le ?_ h44
  have hw : (toFloatImage imgNoop).w = 10 := rfl
  have hh : (toFloatImage imgNoop).h = 10 := rfl
  rw [hw, hh, relightMask_noop 4 4 (by norm_num) (by norm_num)]
  have hd : dNoop 4 4 = 4 / 361 + 1 / 3600 := by
    unfold dNoop
    norm_num
  rw [hd]
  have hc : clipR (1 - (4 / 361 + 1 / 3600 : ℝ)) 0 1 = 1 - (4 / 361 + 1 / 3600 : ℝ) :=
    clipR_eq_self (by norm_num) (by norm_num)
  rw [hc]
  exact Real.rpow_pos_of_pos (by norm_num) _

theorem relNoop_pix (y x : ℕ) :
    (relightFaces (toFloatImage imgNoop) [regionNoop] (9 / 20)).pix y x =
      mapPix (fun c => clipR (c * (1 + 9 / 20 *
          relightMask (toFloatImage imgNoop).w (toFloatImage imgNoop).h [regionNoop] y x *
          (clipR ((0.75 - lumR ((toFloatImage imgNoop).pix y x)) / 0.75) 0 1 ^ (0.8 : ℝ)) *
          clipR ((0.95 - lumR ((toFloatImage imgNoop).pix y x)) / 0.2) 0 1 * 0.9)) 0 1)
        ((toFloatImage imgNoop).pix y x) := by
  unfold relightFaces
  rw [if_neg (by simp), if_neg relightMaskMax_noop_pos]

theorem floorChanLB (g : ℝ) (hg1 : 1 ≤ g) :
    (100 : ℝ) ≤ ((⌊(100 : ℝ) * g⌋).toNat : ℝ) ∧
    100 * g - 1 ≤ ((⌊(100 : ℝ) * g⌋).toNat : ℝ) := by
  have hfl : (100 : ℤ) ≤ ⌊(100 : ℝ) * g⌋ := by
    apply Int.le_floor.mpr
    push_cast
    linarith
  have h0 : (0 : ℤ) ≤ ⌊(100 : ℝ) * g⌋ := by linarith
  have hcast : ((⌊(100 : ℝ) * g⌋.toNat : ℕ) : ℝ) = ((⌊(100 : ℝ) * g⌋ : ℤ) : ℝ) := by
    rw [show ((⌊(100 : ℝ) * g⌋.toNat : ℕ) : ℝ) = (((⌊(100 : ℝ) * g⌋.toNat : ℕ) : ℤ) : ℝ) from
      (Int.cast_natCast _).symm]
    rw [Int.toNat_of_nonneg h0]
  constructor
  · rw [hcast]
    exact_mod_cast hfl
  · rw [hcast]
    have h1 := Int.sub_one_lt_floor ((100 : ℝ) * g)
    linarith

set_option maxHeartbeats 1600000 in
theorem noop_dark_summand (y x : ℕ) (hy : y < 8) (hx : x < 10) :
    (657 / 34 : ℝ) * (1 - dNoop y x) ^ 2 - 1 ≤
      (|((imgNoop.pix y x).1 : ℝ) - ((outNoop.pix y x).1 : ℝ)| +
       |((imgNoop.pix y x).2.1 : ℝ) - ((outNoop.pix y x).2.1 : ℝ)| +
       |((imgNoop.pix y x).2.2 : ℝ) - ((outNoop.pix y x).2.2 : ℝ)|) / 3 := by
  have hy7 : y ≤ 7 := by omega
  have hy10 : y < 10 := by omega
  have himg : imgNoop.pix y x = (100, 100, 100) := by
    unfold imgNoop
    dsimp only
    rw [if_pos hy7]
  have hpixF : (toFloatImage imgNoop).pix y x = (100 / 255, 100 / 255, (100 : ℝ) / 255) := by
    unfold toFloatImage
    dsimp only
    rw [himg]
    norm_num
  have hl : lumR ((toFloatImage imgNoop).pix y x) = 20 / 51 := by
    rw [imgNoop_lum, if_pos hy7]
  have hdwv : clipR ((0.75 - (20 / 51 : ℝ)) / 0.75) 0 1 = 73 / 153 := by
    unfold clipR
    rw [max_eq_right (by norm_num), min_eq_right (by norm_num)]
    norm_num
  have hhg : clipR ((0.95 - (20 / 51 : ℝ)) / 0.2) 0 1 = 1 := by
    unfold clipR
    rw [max_eq_right (by norm_num), min_eq_left (by norm_num)]
  have hd0 : 0 ≤ dNoop y x := by
    unfold dNoop
    positivity
  have hdub : dNoop y x ≤ 100 / 361 + 169 / 900 := by
    unfold dNoop
    have hx9 : (x : ℝ) ≤ 9 := by exact_mod_cast Nat.lt_succ_iff.mp hx
    have hx0 : (0 : ℝ) ≤ (x : ℝ) := Nat.cast_nonneg x
    have hy7R : (y : ℝ) ≤ 7 := by exact_mod_cast hy7
    have hy0 : (0 : ℝ) ≤ (y : ℝ) := Nat.cast_nonneg y
    have h1 : (((x : ℝ) - 5) / (19 / 2)) ^ 2 ≤ 100 / 361 := by
      rw [show (((x : ℝ) - 5) / (19 / 2)) ^ 2 = ((x : ℝ) - 5) ^ 2 * (4 / 361) from by ring]
      nlinarith [mul_nonneg hx0 (show (0 : ℝ) ≤ 10 - (x : ℝ) by linarith)]
    have h2 : (((y : ℝ) - 104 / 25) / (48 / 5)) ^ 2 ≤ 169 / 900 := by
      rw [show (((y : ℝ) - 104 / 25) / (48 / 5)) ^ 2 =
        ((y : ℝ) - 104 / 25) ^ 2 * (25 / 2304) from by ring]
      nlinarith [mul_nonneg hy0 (show (0 : ℝ) ≤ 208 / 25 - (y : ℝ) by linarith)]
    linarith
  have hd1 : dNoop y x < 1 := lt_of_le_of_lt hdub (by norm_num)
  have hclip : clipR (1 - dNoop y x) 0 1 = 1 - dNoop y x :=
    clipR_eq_self (by linarith) (by linarith)
  have hmlb : (1 - dNoop y x) ^ 2 ≤ (1 - dNoop y x) ^ (1.5 : ℝ) := by
    have h2 := Real.rpow_le_rpow_of_exponent_ge
      (show (0 : ℝ) < 1 - dNoop y x by linarith)
      (show (1 - dNoop y x : ℝ) ≤ 1 by linarith)
      (show (1.5 : ℝ) ≤ 2 by norm_num)
    rw [show (2 : ℝ) = ((2 : ℕ) : ℝ) from by norm_num, Real.rpow_natCast] at h2
    exact h2
  have hmub : (1 - dNoop y x) ^ (1.5 : ℝ) ≤ 1 :=
    Real.rpow_le_one (by linarith) (by linarith) (by norm_num)
  have hm0 : (0 : ℝ) ≤ (1 - dNoop y x) ^ (1.5 : ℝ) := Real.rpow_nonneg (by linarith) _
  have hdw_lb : (73 / 153 : ℝ) ≤ (73 / 153 : ℝ) ^ (0.8 : ℝ) := by
    have h1 := Real.rpow_le_rpow_of_exponent_ge
      (show (0 : ℝ) < 73 / 153 by norm_num)
      (show (73 / 153 : ℝ) ≤ 1 by norm_num)
      (show (0.8 : ℝ) ≤ 1 by norm_num)
    rwa [Real.rpow_one] at h1
  have hdw_ub : (73 / 153 : ℝ) ^ (0.8 : ℝ) ≤ 1 :=
    Real.rpow_le_one (by norm_num) (by norm_num) (by norm_num)
  have hdw0 : (0 : ℝ) ≤ (73 / 153 : ℝ) ^ (0.8 : ℝ) := Real.rpow_nonneg (by norm_num) _
  have hprod : (1 - dNoop y x) ^ 2 * (73 / 153 : ℝ) ≤
      (1 - dNoop y x) ^ (1.5 : ℝ) * ((73 / 153 : ℝ) ^ (0.8 : ℝ)) :=
    mul_le_mul hmlb hdw_lb (by norm_num) hm0
  have hprod2 : (1 - dNoop y x) ^ (1.5 : ℝ) * ((73 / 153 : ℝ) ^ (0.8 : ℝ)) ≤ 1 := by
    have h1 := mul_le_mul hmub hdw_ub hdw0 zero_le_one
    simpa using h1
  have hprod0 : (0 : ℝ) ≤ (1 - dNoop y x) ^ (1.5 : ℝ) * ((73 / 153 : ℝ) ^ (0.8 : ℝ)) :=
    mul_nonneg hm0 hdw0
  have hG_lb : 1 + (657 / 3400 : ℝ) * (1 - dNoop y x) ^ 2 ≤
      1 + 9 / 20 * (1 - dNoop y x) ^ (1.5 : ℝ) * ((73 / 153 : ℝ) ^ (0.8 : ℝ)) * 1 * 0.9 := by
    nlinarith [hprod]
  have hG_ub : 1 + 9 / 20 * (1 - dNoop y x) ^ (1.5 : ℝ) * ((73 / 153 : ℝ) ^ (0.8 : ℝ)) * 1 * 0.9 ≤
      1.405 := by
    nlinarith [hprod2]
  have hG1 : (1 : ℝ) ≤
      1 + 9 / 20 * (1 - dNoop y x) ^ (1.5 : ℝ) * ((73 / 153 : ℝ) ^ (0.8 : ℝ)) * 1 * 0.9 := by
    nlinarith [hprod0]
  have hrel := relNoop_pix y x
  rw [hl, hdwv, hhg, show (toFloatImage imgNoop).w = 10 from rfl,
    show (toFloatImage imgNoop).h = 10 from rfl, relightMask_noop y x hy10 hx, hclip,
    hpixF] at hrel
  have hclip2 : clipR (100 / 255 *
      (1 + 9 / 20 * (1 - dNoop y x) ^ (1.5 : ℝ) * ((73 / 153 : ℝ) ^ (0.8 : ℝ)) * 1 * 0.9)) 0 1 =
      100 / 255 *
      (1 + 9 / 20 * (1 - dNoop y x) ^ (1.5 : ℝ) * ((73 / 153 : ℝ) ^ (0.8 : ℝ)) * 1 * 0.9) :=
    clipR_eq_self (by nlinarith [hG1]) (by nlinarith [hG_ub])
  have hout : outNoop.pix y x =
      ((⌊(100 : ℝ) *
          (1 + 9 / 20 * (1 - dNoop y x) ^ (1.5 : ℝ) * ((73 / 153 : ℝ) ^ (0.8 : ℝ)) * 1 * 0.9)⌋).toNat,
       (⌊(100 : ℝ) *
          (1 + 9 / 20 * (1 - dNoop y x) ^ (1.5 : ℝ) * ((73 / 153 : ℝ) ^ (0.8 : ℝ)) * 1 * 0.9)⌋).toNat,
       (⌊(100 : ℝ) *
          (1 + 9 / 20 * (1 - dNoop y x) ^ (1.5 : ℝ) * ((73 / 153 : ℝ) ^ (0.8 : ℝ)) * 1 * 0.9)⌋).toNat) := by
    unfold outNoop toUint8Clip
    dsimp only
    rw [hrel]
    unfold mapPix
    dsimp only
    rw [hclip2, hclip2]
    rw [show (100 / 255 *
        (1 + 9 / 20 * (1 - dNoop y x) ^ (1.5 : ℝ) * ((73 / 153 : ℝ) ^ (0.8 : ℝ)) * 1 * 0.9)) * 255 =
      (100 : ℝ) *
        (1 + 9 / 20 * (1 - dNoop y x) ^ (1.5 : ℝ) * ((73 / 153 : ℝ) ^ (0.8 : ℝ)) * 1 * 0.9)
      from by ring]
  have hM := floorChanLB
    (1 + 9 / 20 * (1 - dNoop y x) ^ (1.5 : ℝ) * ((73 / 153 : ℝ) ^ (0.8 : ℝ)) * 1 * 0.9) hG1
  have e1 : ((imgNoop.pix y x).1 : ℝ) = 100 := by
    rw [himg]
    norm_num
  have e2 : ((imgNoop.pix y x).2.1 : ℝ) = 100 := by
    rw [himg]
    norm_num
  have e3 : ((imgNoop.pix y x).2.2 : ℝ) = 100 := by
    rw [himg]
    norm_num
  have o1 : ((outNoop.pix y x).1 : ℝ) =
      ((⌊(100 : ℝ) *
        (1 + 9 / 20 * (1 - dNoop y x) ^ (1.5 : ℝ) * ((73 / 153 : ℝ) ^ (0.8 : ℝ)) * 1 * 0.9)⌋).toNat : ℝ) := by
    rw [hout]
  have o2 : ((outNoop.pix y x).2.1 : ℝ) = ((outNoop.pix y x).1 : ℝ) := by
    rw [hout]
  have o3 : ((outNoop.pix y x).2.2 : ℝ) = ((outNoop.pix y x).1 : ℝ) := by
    rw [hout]
  rw [e1, e2, e3, o2, o3, o1]
  rw [abs_sub_comm, abs_of_nonneg (by linarith [hM.1])]
  linarith [hM.1, hM.2, hG_lb]

set_option maxHeartbeats 1600000 in
theorem noop_sum_dark :
    (55 : ℝ) < ∑ p ∈ Finset.range 8 ×ˢ Finset.range 10, (1 - dNoop p.1 p.2) ^ 2 := by
  rw [Finset.sum_product]
  unfold dNoop
  norm_num [Finset.sum_range_succ, Finset.sum_range_zero]

/-- Counterexample to the unconditional no-op claim: on the 10×10 buffer
`imgNoop` with the embedded face region `regionNoop`, neutral parameters
still relight the dark block (the auto face-relight trigger fires at
strength 0.45), and the average per-pixel change exceeds 5/255. -/
theorem c5_counterexample :
    ¬ avgAbsChange imgNoop
        (applyOptimizations trivApplyOracle imgNoop neutralParams [regionNoop]).1 ≤ 5 / 255 := by
  rw [applyOpt_imgNoop, not_le]
  unfold avgAbsChange
  rw [show imgNoop.h = 10 from rfl, show imgNoop.w = 10 from rfl]
  have hsub : (Finset.range 8 ×ˢ Finset.range 10) ⊆ (Finset.range 10 ×ˢ Finset.range 10) :=
    Finset.product_subset_product (Finset.range_subset.mpr (by norm_num))
      (Finset.Subset.refl _)
  have hmono : ∑ p ∈ Finset.range 8 ×ˢ Finset.range 10,
      (|((imgNoop.pix p.1 p.2).1 : ℝ) - ((outNoop.pix p.1 p.2).1 : ℝ)| +
       |((imgNoop.pix p.1 p.2).2.1 : ℝ) - ((outNoop.pix p.1 p.2).2.1 : ℝ)| +
       |((imgNoop.pix p.1 p.2).2.2 : ℝ) - ((outNoop.pix p.1 p.2).2.2 : ℝ)|) / 3 ≤
      ∑ p ∈ Finset.range 10 ×ˢ Finset.range 10,
      (|((imgNoop.pix p.1 p.2).1 : ℝ) - ((outNoop.pix p.1 p.2).1 : ℝ)| +
       |((imgNoop.pix p.1 p.2).2.1 : ℝ) - ((outNoop.pix p.1 p.2).2.1 : ℝ)| +
       |((imgNoop.pix p.1 p.2).2.2 : ℝ) - ((outNoop.pix p.1 p.2).2.2 : ℝ)|) / 3 :=
    Finset.sum_le_sum_of_subset_of_nonneg hsub (fun p hp hnp => by positivity)
  have hterm : ∑ p ∈ Finset.range 8 ×ˢ Finset.range 10,
      ((657 / 34 : ℝ) * (1 - dNoop p.1 p.2) ^ 2 - 1) ≤
      ∑ p ∈ Finset.range 8 ×ˢ Finset.range 10,
      (|((imgNoop.pix p.1 p.2).1 : ℝ) - ((outNoop.pix p.1 p.2).1 : ℝ)| +
       |((imgNoop.pix p.1 p.2).2.1 : ℝ) - ((outNoop.pix p.1 p.2).2.1 : ℝ)| +
       |((imgNoop.pix p.1 p.2).2.2 : ℝ) - ((outNoop.pix p.1 p.2).2.2 : ℝ)|) / 3 := by
    apply Finset.sum_le_sum
    intro p hp
    obtain ⟨hp1, hp2⟩ := Finset.mem_product.mp hp
    exact noop_dark_summand p.1 p.2 (Finset.mem_range.mp hp1) (Finset.mem_range.mp hp2)
  have hlin : ∑ p ∈ Finset.range 8 ×ˢ Finset.range 10,
      ((657 / 34 : ℝ) * (1 - dNoop p.1 p.2) ^ 2 - 1) =
      (657 / 34 : ℝ) *
        (∑ p ∈ Finset.range 8 ×ˢ Finset.range 10, (1 - dNoop p.1 p.2) ^ 2) - 80 := by
    rw [Finset.sum_sub_distrib, ← Finset.mul_sum]
    norm_num [Finset.card_product]
  have hS := noop_sum_dark
  rw [hlin] at hterm
  rw [show (((10 * 10 : ℕ) : ℝ)) = 100 from by norm_num]
  linarith

end Heic
